import Mathlib

/-! aliyunpan syncdrive: metadata stores and sync task manager

A shallow embedding of `internal/syncdrive/sync_db_bolt.go` (the two
path-keyed metadata stores `PanSyncDbBolt` and `LocalSyncDbBolt`) and of
`internal/syncdrive/sync_task_mgr.go` (`SyncTaskManager`).

Conventions of the embedding.

* A Go `error` is its message; `nil` is `none`.
* A Go pointer that may be nil is an `Option`; a slice that may be nil is an
  `Option (List _)`.
* Stateful code passes its state explicitly.  The storage behind a store is a
  value of an arbitrary type `σ`; the file system, the random source and the
  running tasks behind the manager are a value of an arbitrary type `ω`.
* Code that is declared outside the two source files (the key-value substrate
  `BoltDb`, `FormatFilePath`, the item types and their JSON codec, `SyncTask`
  and its `Start`, the `utils` helpers, the Go standard library) is taken as a
  parameter.
* The mutex of a store serialises whole operations; the embedding is
  sequential, so `Lock`/`Unlock` do not appear.
* `logger.Verboseln` and `fmt.Println` only produce output and are left out.
-/

namespace Syncdrive

/-- Go `error` values, represented by their message. -/
abbrev Error := String

/-- Result of a call that can end in a Go run-time panic (nil dereference). -/
inductive Outcome (α : Type) where
  | ret (v : α)
  | panic
  deriving DecidableEq

/-- Record handed to the substrate: `BoltItem` with the three fields the
stores fill in (`FilePath`, `IsFolder`, `Data`). -/
structure BoltItem where
  FilePath : String
  IsFolder : Bool
  Data : String
  deriving DecidableEq

/-- The key-value substrate `BoltDb` as the stores use it.  It is declared
outside the embedded sources, so it is a parameter: one function per method the
stores call, acting on a storage state `σ`.  `Open` and `Close` are called as
statements, their results are dropped by every caller; they are given an
error-or-nil result here so that a failing open or close can be expressed. -/
structure BoltDb (σ : Type) where
  Open : σ → σ × Option Error
  Close : σ → σ × Option Error
  Add : BoltItem → σ → σ × (Bool × Option Error)
  AddItems : List BoltItem → σ → σ × (Bool × Option Error)
  Get : String → σ → σ × (String × Option Error)
  GetFileList : String → σ → σ × (List String × Option Error)
  Delete : String → σ → σ × (Bool × Option Error)
  Update : String → Bool → String → σ → σ × (Bool × Option Error)

/-- What the stores need from an item type (`PanFileItem`, `LocalFileItem`,
both declared outside the embedded sources): the `Path` field, `IsFolder()`,
`json.Marshal(item)` for a non-nil item and `json.Unmarshal([]byte(data), item)`
into a fresh zero item. -/
structure ItemOps (Item : Type) where
  Path : Item → String
  IsFolder : Item → Bool
  Marshal : Item → Except Error String
  Unmarshal : String → Except Error Item

/-- Calls made on the substrate, for stating which calls an operation makes. -/
inductive DbCall where
  | openDb
  | closeDb
  | add (item : BoltItem)
  | addItems (items : List BoltItem)
  | get (key : String)
  | getFileList (key : String)
  | delete (key : String)
  | update (key : String) (isFolder : Bool) (data : String)
  deriving DecidableEq

/-- The same substrate, additionally recording every call made on it, in
order.  It behaves as `db` on the first component. -/
def BoltDb.traced {σ : Type} (db : BoltDb σ) : BoltDb (σ × List DbCall) where
  Open := fun s => (((db.Open s.1).1, s.2 ++ [DbCall.openDb]), (db.Open s.1).2)
  Close := fun s => (((db.Close s.1).1, s.2 ++ [DbCall.closeDb]), (db.Close s.1).2)
  Add := fun b s => (((db.Add b s.1).1, s.2 ++ [DbCall.add b]), (db.Add b s.1).2)
  AddItems := fun bs s =>
    (((db.AddItems bs s.1).1, s.2 ++ [DbCall.addItems bs]), (db.AddItems bs s.1).2)
  Get := fun k s => (((db.Get k s.1).1, s.2 ++ [DbCall.get k]), (db.Get k s.1).2)
  GetFileList := fun k s =>
    (((db.GetFileList k s.1).1, s.2 ++ [DbCall.getFileList k]), (db.GetFileList k s.1).2)
  Delete := fun k s => (((db.Delete k s.1).1, s.2 ++ [DbCall.delete k]), (db.Delete k s.1).2)
  Update := fun k f d s =>
    (((db.Update k f d s.1).1, s.2 ++ [DbCall.update k f d]), (db.Update k f d s.1).2)

/-- The loop of `AddFileList` (lines 76-87 and 231-242): serialise the items in
order into `boltItems`; the first serialisation error ends the loop.  For a nil
element `json.Marshal` yields `null` without error and the following
`item.Path` dereferences nil. -/
def marshalItems {Item : Type} (ops : ItemOps Item) :
    List (Option Item) → List BoltItem → Outcome (Except Error (List BoltItem))
  | [], boltItems => Outcome.ret (Except.ok boltItems)
  | none :: _, _ => Outcome.panic
  | some item :: rest, boltItems =>
    match ops.Marshal item with
    | Except.error err => Outcome.ret (Except.error err)
    | Except.ok data =>
      marshalItems ops rest
        (boltItems ++ [{ FilePath := ops.Path item, IsFolder := ops.IsFolder item, Data := data }])

/-- The loop of `GetFileList` (lines 130-139 and 285-294): skip empty payloads,
deserialise the others in order; the first deserialisation error ends the loop. -/
def unmarshalItems {Item : Type} (ops : ItemOps Item) :
    List String → List Item → Except Error (List Item)
  | [], fileList => Except.ok fileList
  | data :: rest, fileList =>
    if data = "" then unmarshalItems ops rest fileList
    else
      match ops.Unmarshal data with
      | Except.error err => Except.error err
      | Except.ok item => unmarshalItems ops rest (fileList ++ [item])

namespace PanSyncDbBolt

variable {σ PanFileItem : Type}

/-- Method `PanSyncDbBolt.Add` (lines 42-62). -/
def Add (db : BoltDb σ) (ops : ItemOps PanFileItem) (item : Option PanFileItem) (s : σ) :
    σ × (Bool × Option Error) :=
  match item with
  | none => (s, (false, some "item is nil"))
  | some it =>
    let s1 := (db.Open s).1
    match ops.Marshal it with
    | Except.error err => ((db.Close s1).1, (false, some err))
    | Except.ok data =>
      let r := db.Add { FilePath := ops.Path it, IsFolder := ops.IsFolder it, Data := data } s1
      ((db.Close r.1).1, r.2)

/-- Method `PanSyncDbBolt.AddFileList` (lines 65-89). -/
def AddFileList (db : BoltDb σ) (ops : ItemOps PanFileItem)
    (items : Option (List (Option PanFileItem))) (s : σ) :
    σ × Outcome (Bool × Option Error) :=
  match items with
  | none => (s, Outcome.ret (false, some "item is nil"))
  | some its =>
    let s1 := (db.Open s).1
    match marshalItems ops its [] with
    | Outcome.panic => ((db.Close s1).1, Outcome.panic)
    | Outcome.ret (Except.error err) => ((db.Close s1).1, Outcome.ret (false, some err))
    | Outcome.ret (Except.ok boltItems) =>
      let r := db.AddItems boltItems s1
      ((db.Close r.1).1, Outcome.ret r.2)

/-- Method `PanSyncDbBolt.Get` (lines 92-113). -/
def Get (db : BoltDb σ) (ops : ItemOps PanFileItem) (FormatFilePath : String → String)
    (filePath : String) (s : σ) : σ × (Option PanFileItem × Option Error) :=
  let filePath := FormatFilePath filePath
  if filePath = "" then (s, (none, some "item is nil"))
  else
    let s1 := (db.Open s).1
    let r := db.Get filePath s1
    let s2 := (db.Close r.1).1
    if r.2.2 = none ∧ r.2.1 ≠ "" then
      match ops.Unmarshal r.2.1 with
      | Except.error err => (s2, (none, some err))
      | Except.ok item => (s2, (some item, none))
    else (s2, (none, r.2.2))

/-- Method `PanSyncDbBolt.GetFileList` (lines 115-143). -/
def GetFileList (db : BoltDb σ) (ops : ItemOps PanFileItem) (FormatFilePath : String → String)
    (filePath : String) (s : σ) : σ × (Option (List PanFileItem) × Option Error) :=
  let filePath := FormatFilePath filePath
  if filePath = "" then (s, (none, some "item is nil"))
  else
    let s1 := (db.Open s).1
    let r := db.GetFileList filePath s1
    let s2 := (db.Close r.1).1
    if r.2.2 = none ∧ r.2.1.length > 0 then
      match unmarshalItems ops r.2.1 [] with
      | Except.error err => (s2, (none, some err))
      | Except.ok panFileList => (s2, (some panFileList, none))
    else (s2, (none, r.2.2))

/-- Method `PanSyncDbBolt.Delete` (lines 146-159). -/
def Delete (db : BoltDb σ) (FormatFilePath : String → String) (filePath : String) (s : σ) :
    σ × (Bool × Option Error) :=
  let filePath := FormatFilePath filePath
  if filePath = "" then (s, (false, some "item is nil"))
  else
    let s1 := (db.Open s).1
    let r := db.Delete filePath s1
    ((db.Close r.1).1, r.2)

/-- Method `PanSyncDbBolt.Update` (lines 162-178). -/
def Update (db : BoltDb σ) (ops : ItemOps PanFileItem) (item : Option PanFileItem) (s : σ) :
    σ × (Bool × Option Error) :=
  match item with
  | none => (s, (false, some "item is nil"))
  | some it =>
    let s1 := (db.Open s).1
    match ops.Marshal it with
    | Except.error err => ((db.Close s1).1, (false, some err))
    | Except.ok data =>
      let r := db.Update (ops.Path it) (ops.IsFolder it) data s1
      ((db.Close r.1).1, r.2)

end PanSyncDbBolt

namespace LocalSyncDbBolt

variable {σ LocalFileItem : Type}

/-- Method `LocalSyncDbBolt.Add` (lines 197-217). -/
def Add (db : BoltDb σ) (ops : ItemOps LocalFileItem) (item : Option LocalFileItem) (s : σ) :
    σ × (Bool × Option Error) :=
  match item with
  | none => (s, (false, some "item is nil"))
  | some it =>
    let s1 := (db.Open s).1
    match ops.Marshal it with
    | Except.error err => ((db.Close s1).1, (false, some err))
    | Except.ok data =>
      let r := db.Add { FilePath := ops.Path it, IsFolder := ops.IsFolder it, Data := data } s1
      ((db.Close r.1).1, r.2)

/-- Method `LocalSyncDbBolt.AddFileList` (lines 220-244). -/
def AddFileList (db : BoltDb σ) (ops : ItemOps LocalFileItem)
    (items : Option (List (Option LocalFileItem))) (s : σ) :
    σ × Outcome (Bool × Option Error) :=
  match items with
  | none => (s, Outcome.ret (false, some "item is nil"))
  | some its =>
    let s1 := (db.Open s).1
    match marshalItems ops its [] with
    | Outcome.panic => ((db.Close s1).1, Outcome.panic)
    | Outcome.ret (Except.error err) => ((db.Close s1).1, Outcome.ret (false, some err))
    | Outcome.ret (Except.ok boltItems) =>
      let r := db.AddItems boltItems s1
      ((db.Close r.1).1, Outcome.ret r.2)

/-- Method `LocalSyncDbBolt.Get` (lines 247-268). -/
def Get (db : BoltDb σ) (ops : ItemOps LocalFileItem) (FormatFilePath : String → String)
    (filePath : String) (s : σ) : σ × (Option LocalFileItem × Option Error) :=
  let filePath := FormatFilePath filePath
  if filePath = "" then (s, (none, some "item is nil"))
  else
    let s1 := (db.Open s).1
    let r := db.Get filePath s1
    let s2 := (db.Close r.1).1
    if r.2.2 = none ∧ r.2.1 ≠ "" then
      match ops.Unmarshal r.2.1 with
      | Except.error err => (s2, (none, some err))
      | Except.ok item => (s2, (some item, none))
    else (s2, (none, r.2.2))

/-- Method `LocalSyncDbBolt.GetFileList` (lines 270-298). -/
def GetFileList (db : BoltDb σ) (ops : ItemOps LocalFileItem) (FormatFilePath : String → String)
    (filePath : String) (s : σ) : σ × (Option (List LocalFileItem) × Option Error) :=
  let filePath := FormatFilePath filePath
  if filePath = "" then (s, (none, some "item is nil"))
  else
    let s1 := (db.Open s).1
    let r := db.GetFileList filePath s1
    let s2 := (db.Close r.1).1
    if r.2.2 = none ∧ r.2.1.length > 0 then
      match unmarshalItems ops r.2.1 [] with
      | Except.error err => (s2, (none, some err))
      | Except.ok localFileList => (s2, (some localFileList, none))
    else (s2, (none, r.2.2))

/-- Method `LocalSyncDbBolt.Delete` (lines 301-312). -/
def Delete (db : BoltDb σ) (FormatFilePath : String → String) (filePath : String) (s : σ) :
    σ × (Bool × Option Error) :=
  let filePath := FormatFilePath filePath
  if filePath = "" then (s, (false, some "item is nil"))
  else
    let s1 := (db.Open s).1
    let r := db.Delete filePath s1
    ((db.Close r.1).1, r.2)

/-- Method `LocalSyncDbBolt.Update` (lines 315-331). -/
def Update (db : BoltDb σ) (ops : ItemOps LocalFileItem) (item : Option LocalFileItem) (s : σ) :
    σ × (Bool × Option Error) :=
  match item with
  | none => (s, (false, some "item is nil"))
  | some it =>
    let s1 := (db.Open s).1
    match ops.Marshal it with
    | Except.error err => ((db.Close s1).1, (false, some err))
    | Except.ok data =>
      let r := db.Update (ops.Path it) (ops.IsFolder it) data s1
      ((db.Close r.1).1, r.2)

end LocalSyncDbBolt

/-- Handle of the remote-access client (`*aliyunpan.PanClient`, an external
type); the manager only copies it. -/
abbrev PanClient := Nat

/-- Type `SyncTask`, declared outside the embedded sources: the fields that
`SyncTaskManager.Start` assigns (`Id`, `DriveId`, `syncDbFolderPath`,
`panClient`) and the persisted fields of the sample in `parseConfigFile`. -/
structure SyncTask where
  Name : String
  Id : String
  DriveId : String
  LocalFolderPath : String
  PanFolderPath : String
  Mode : String
  LastSyncTime : String
  syncDbFolderPath : String
  panClient : Option PanClient
  deriving DecidableEq

/-- Type `SyncDriveConfig` (lines 23-26); `SyncTaskList` is a slice of pointers. -/
structure SyncDriveConfig where
  ConfigVer : String
  SyncTaskList : Option (List (Option SyncTask))
  deriving DecidableEq

/-- Type `SyncTaskManager` (lines 15-20). -/
structure SyncTaskManager where
  syncDriveConfig : Option SyncDriveConfig
  DriveId : String
  PanClient : Option PanClient
  SyncConfigFolderPath : String
  deriving DecidableEq

/-- Variable `ErrSyncTaskListEmpty` (line 30). -/
def ErrSyncTaskListEmpty : Error := "no sync task"

/-- What the manager calls outside the embedded sources, acting on a world `ω`
(file system, random source, running tasks): `path.Join`, the boolean result of
`utils.PathExists`, `ioutil.ReadFile`, `ioutil.WriteFile`,
`utils.ObjectToJsonStr`, `json.Unmarshal(data, config)` (which writes into the
config it is given and reports an error or nil), `utils.UuidStr` and
`SyncTask.Start` (a pointer method: it returns the task as it leaves it). -/
structure Env (ω : Type) where
  Join : String → String → String
  PathExists : String → ω → Bool
  ReadFile : String → ω → Except Error String
  WriteFile : String → String → Nat → ω → ω × Option Error
  ObjectToJsonStr : SyncDriveConfig → Bool → String
  Unmarshal : String → SyncDriveConfig → SyncDriveConfig × Option Error
  UuidStr : ω → ω × String
  TaskStart : SyncTask → ω → ω × (SyncTask × Option Error)

/-- Calls of the manager that the theorems speak about. -/
inductive SysCall where
  | writeFile (path : String) (text : String) (perm : Nat)
  | taskStart (task : SyncTask)
  deriving DecidableEq

/-- The same environment, additionally recording every `WriteFile` and every
`SyncTask.Start` call, in order.  It behaves as `env` on the first component. -/
def Env.traced {ω : Type} (env : Env ω) : Env (ω × List SysCall) where
  Join := env.Join
  PathExists := fun p w => env.PathExists p w.1
  ReadFile := fun p w => env.ReadFile p w.1
  WriteFile := fun p d perm w =>
    (((env.WriteFile p d perm w.1).1, w.2 ++ [SysCall.writeFile p d perm]),
      (env.WriteFile p d perm w.1).2)
  ObjectToJsonStr := env.ObjectToJsonStr
  Unmarshal := env.Unmarshal
  UuidStr := fun w => (((env.UuidStr w.1).1, w.2), (env.UuidStr w.1).2)
  TaskStart := fun t w =>
    (((env.TaskStart t w.1).1, w.2 ++ [SysCall.taskStart t]), (env.TaskStart t w.1).2)

namespace SyncTaskManager

variable {ω : Type}

/-- Method `SyncTaskManager.configFilePath` (lines 84-86). -/
def configFilePath (env : Env ω) (m : SyncTaskManager) : String :=
  env.Join m.SyncConfigFolderPath "sync_drive_config.json"

/-- Method `SyncTaskManager.parseConfigFile` (lines 41-82).  Permission `0600` is
`384`. -/
def parseConfigFile (env : Env ω) (m : SyncTaskManager) (w : ω) :
    ω × (SyncTaskManager × Option Error) :=
  let configFilePath := configFilePath env m
  let r : SyncDriveConfig := { ConfigVer := "1.0", SyncTaskList := some [] }
  let m1 : SyncTaskManager := { m with syncDriveConfig := some r }
  if env.PathExists configFilePath w ≠ true then
    let text := env.ObjectToJsonStr r true
    ((env.WriteFile configFilePath text 384 w).1, (m1, none))
  else
    match env.ReadFile configFilePath w with
    | Except.error e => (w, (m1, some e))
    | Except.ok data =>
      if data.length > 0 then
        let u := env.Unmarshal data r
        match u.2 with
        | some err2 => (w, ({ m with syncDriveConfig := some u.1 }, some err2))
        | none => (w, ({ m with syncDriveConfig := some u.1 }, none))
      else (w, (m1, none))

/-- The loop of `Start` (lines 98-112) over the task pointers, in list order.
A nil pointer in the list is dereferenced by `len(task.Id)`. -/
def startTasks (env : Env ω) (m : SyncTaskManager) :
    List (Option SyncTask) → ω → ω × Outcome (List (Option SyncTask))
  | [], w => (w, Outcome.ret [])
  | none :: _, w => (w, Outcome.panic)
  | some task :: rest, w =>
    let a : ω × SyncTask :=
      if task.Id.length = 0 then ((env.UuidStr w).1, { task with Id := (env.UuidStr w).2 })
      else (w, task)
    let task1 : SyncTask :=
      { a.2 with
        DriveId := m.DriveId
        syncDbFolderPath := m.SyncConfigFolderPath
        panClient := m.PanClient }
    let r := env.TaskStart task1 a.1
    match startTasks env m rest r.1 with
    | (w2, Outcome.ret rest1) => (w2, Outcome.ret (some r.2.1 :: rest1))
    | (w2, Outcome.panic) => (w2, Outcome.panic)

/-- Method `SyncTaskManager.Start` (lines 89-116). -/
def Start (env : Env ω) (m : SyncTaskManager) (w : ω) :
    ω × (SyncTaskManager × Outcome (Bool × Option Error)) :=
  let p := parseConfigFile env m w
  if p.2.2 ≠ none then (p.1, (p.2.1, Outcome.ret (false, none)))
  else
    match p.2.1.syncDriveConfig with
    | none => (p.1, (p.2.1, Outcome.panic))
    | some cfg =>
      match cfg.SyncTaskList with
      | none => (p.1, (p.2.1, Outcome.ret (false, some ErrSyncTaskListEmpty)))
      | some tasks =>
        if tasks.length = 0 then (p.1, (p.2.1, Outcome.ret (false, some ErrSyncTaskListEmpty)))
        else
          match startTasks env p.2.1 tasks p.1 with
          | (w2, Outcome.panic) => (w2, (p.2.1, Outcome.panic))
          | (w2, Outcome.ret tasks1) =>
            let cfg1 : SyncDriveConfig := { cfg with SyncTaskList := some tasks1 }
            let m2 : SyncTaskManager := { p.2.1 with syncDriveConfig := some cfg1 }
            ((env.WriteFile (configFilePath env m2) (env.ObjectToJsonStr cfg1 true) 384 w2).1,
              (m2, Outcome.ret (true, none)))

end SyncTaskManager

/-- The persisted part of a task: the two runtime fields carry no JSON tag
and are reset. -/
def SyncTask.persisted (t : SyncTask) : SyncTask :=
  { t with syncDbFolderPath := "", panClient := none }

/-- The persisted part of a configuration. -/
def SyncDriveConfig.persisted (c : SyncDriveConfig) : SyncDriveConfig :=
  { c with SyncTaskList := c.SyncTaskList.map (fun l => l.map (fun o => o.map SyncTask.persisted)) }

/-! ## Laws of the parameters and concrete instances

The laws below are stated about the parameters (substrate, codec, file system);
the concrete instances are small in-memory stand-ins on which the theorems are
instantiated. -/

/-- Law of a substrate: a record whose `Add` reported no error is what `Get`
returns for its key once the handle has been closed and opened again. -/
def BoltDb.KeepsAdded {σ : Type} (db : BoltDb σ) : Prop :=
  ∀ (b : BoltItem) (s : σ), (db.Add b s).2.2 = none →
    (db.Get b.FilePath (db.Open (db.Close (db.Add b s).1).1).1).2 = (b.Data, none)

/-- Law of a codec at one item: what `Marshal` produces for it is not empty and
`Unmarshal` reads it back as the same item. -/
def ItemOps.RoundTrips {Item : Type} (ops : ItemOps Item) (item : Item) : Prop :=
  ∀ data : String, ops.Marshal item = Except.ok data →
    data ≠ "" ∧ ops.Unmarshal data = Except.ok item

/-- Whether `child` is `folder` followed by one separator and one more name. -/
def isChildPath (folder child : String) : Bool :=
  (folder.data ++ ['/']).isPrefixOf child.data &&
    !((child.data.drop (folder.data.length + 1)).contains '/') &&
    decide (folder.data.length + 1 < child.data.length)

/-- Modelled from the spec: `BoltDb`, the key-value substrate of the stores
(declared outside the embedded sources), as section 3 describes it: records
keyed by path holding a folder flag and a payload, with point get, put, delete,
batch insert and the listing of the immediate children of a folder.  The state
is the list of records.  `openErr` and `closeErr` are what `Open` and `Close`
report.  A lookup of a key without record yields the empty payload. -/
def memDb (openErr closeErr : Option Error) : BoltDb (List BoltItem) where
  Open := fun s => (s, openErr)
  Close := fun s => (s, closeErr)
  Add := fun b s => (b :: s.filter (fun x => x.FilePath ≠ b.FilePath), (true, none))
  AddItems := fun bs s =>
    (bs.foldl (fun acc b => b :: acc.filter (fun x => x.FilePath ≠ b.FilePath)) s, (true, none))
  Get := fun k s =>
    (s, (match s.find? (fun x => x.FilePath = k) with
         | some b => b.Data
         | none => "", none))
  GetFileList := fun k s =>
    (s, ((s.filter (fun x => isChildPath k x.FilePath)).map (fun x => x.Data), none))
  Delete := fun k s => (s.filter (fun x => x.FilePath ≠ k), (true, none))
  Update := fun k f d s =>
    if s.any (fun x => x.FilePath = k) then
      ({ FilePath := k, IsFolder := f, Data := d } :: s.filter (fun x => x.FilePath ≠ k),
        (true, none))
    else (s, (false, some "item not found"))

/-- A small item type for the instances. -/
structure FileRec where
  Path : String
  Folder : Bool
  Size : Nat
  deriving DecidableEq

/-- Modelled from the spec: the record codec of the item types, which are
declared outside the embedded sources, as a finite table of (text, item) pairs:
an item outside the table cannot be serialised, a text outside the table cannot
be parsed. -/
def tableOps (table : List (String × FileRec)) : ItemOps FileRec where
  Path := FileRec.Path
  IsFolder := FileRec.Folder
  Marshal := fun it =>
    match table.find? (fun e => e.2 = it) with
    | some e => Except.ok e.1
    | none => Except.error "json: unsupported value"
  Unmarshal := fun d =>
    match table.find? (fun e => e.1 = d) with
    | some e => Except.ok e.2
    | none => Except.error "invalid character"

/-- World of the manager instances: the files by path and the identifiers the
random source will hand out. -/
structure World where
  files : List (String × String)
  uuids : List String
  deriving DecidableEq

/-- Modelled from the spec: the collaborators of the manager that are declared
outside the embedded sources (`utils.PathExists`, `utils.ObjectToJsonStr`,
`utils.UuidStr`, `SyncTask.Start`), with the file system and `json.Unmarshal`,
as a small instance over `World`.  Files are read and written in `files` and a
write always succeeds; the configuration codec is a finite table of (text,
config) pairs, a config being written as the text of its persisted part;
`UuidStr` hands out `uuid-` followed by the next entry of `uuids`; the task
`Start` fails exactly for the tasks named in `failing` and leaves the task as
it is. -/
def tableEnv (table : List (String × SyncDriveConfig)) (failing : List String) : Env World where
  Join := fun a b => a ++ "/" ++ b
  PathExists := fun p w => (w.files.find? (fun f => f.1 = p)).isSome
  ReadFile := fun p w =>
    match w.files.find? (fun f => f.1 = p) with
    | some f => Except.ok f.2
    | none => Except.error "no such file or directory"
  WriteFile := fun p d _ w =>
    ({ w with files := (p, d) :: w.files.filter (fun f => f.1 ≠ p) }, none)
  ObjectToJsonStr := fun c _ =>
    match table.find? (fun e => e.2 = c.persisted) with
    | some e => e.1
    | none => ""
  Unmarshal := fun d c =>
    match table.find? (fun e => e.1 = d) with
    | some e => (e.2, none)
    | none => (c, some "invalid character")
  UuidStr := fun w =>
    match w.uuids with
    | [] => (w, "00000000-0000-4000-8000-000000000000")
    | u :: rest => ({ w with uuids := rest }, "uuid-" ++ u)
  TaskStart := fun t w => (w, (t, if t.Name ∈ failing then some "start failed" else none))

/-- Law of the file system: a write that reported no error leaves a file that
exists and reads back as the text written. -/
def Env.KeepsWritten {ω : Type} (env : Env ω) : Prop :=
  ∀ (p d : String) (perm : Nat) (w : ω), (env.WriteFile p d perm w).2 = none →
    env.PathExists p (env.WriteFile p d perm w).1 = true ∧
    env.ReadFile p (env.WriteFile p d perm w).1 = Except.ok d

/-- How the loop of `Start` hands task `t` to `SyncTask.Start` as `c`: the
identifier is kept when there is one and comes from `UuidStr` otherwise, the
drive, the folder and the client are those of the manager, the other fields
are those of `t`. -/
def Prepared {ω : Type} (env : Env ω) (m : SyncTaskManager) (t c : SyncTask) : Prop :=
  c = { t with
        Id := c.Id
        DriveId := m.DriveId
        syncDbFolderPath := m.SyncConfigFolderPath
        panClient := m.PanClient } ∧
  (t.Id ≠ "" → c.Id = t.Id) ∧ (t.Id = "" → ∃ wi : ω, c.Id = (env.UuidStr wi).2)

/-! ## Instances used by the theorems -/

/-- An item of the instances, stored at `/a/b`. -/
def recA : FileRec := { Path := "/a/b", Folder := false, Size := 3 }

/-- An item of the instances that the table codec cannot serialise. -/
def recBad : FileRec := { Path := "/a/c", Folder := false, Size := 7 }

/-- Codec table of the instances: `recA` is written as `A`. -/
def recTable : List (String × FileRec) := [("A", recA)]


/-- Manager of the instances, on the folder `/cfg`. -/
def mgr0 : SyncTaskManager :=
  { syncDriveConfig := none, DriveId := "drive1", PanClient := some 1,
    SyncConfigFolderPath := "/cfg" }

/-- The configuration that `parseConfigFile` starts from. -/
def emptyCfg : SyncDriveConfig := { ConfigVer := "1.0", SyncTaskList := some [] }

/-- A task definition of the instances with the given name and identifier. -/
def mkTask (name id driveId : String) : SyncTask :=
  { Name := name, Id := id, DriveId := driveId, LocalFolderPath := "/local/" ++ name,
    PanFolderPath := "/pan/" ++ name, Mode := "sync", LastSyncTime := "",
    syncDbFolderPath := "", panClient := none }

/-- Three configured tasks; only the second has an identifier. -/
def cfg3 : SyncDriveConfig :=
  { ConfigVer := "1.0",
    SyncTaskList := some [some (mkTask "a" "" ""), some (mkTask "b" "id-b" ""),
      some (mkTask "c" "" "")] }

/-- The three tasks as saved after a `Start` of `mgr0`. -/
def saved3 : SyncDriveConfig :=
  { ConfigVer := "1.0",
    SyncTaskList := some [some (mkTask "a" "uuid-1" "drive1"), some (mkTask "b" "id-b" "drive1"),
      some (mkTask "c" "uuid-2" "drive1")] }

/-- Codec table of the manager instances. -/
def cfgTable : List (String × SyncDriveConfig) :=
  [("EMPTY", emptyCfg), ("CFG3", cfg3), ("SAVED3", saved3)]

/-- Environment of the manager instances; the `Start` of task `b` fails. -/
def env0 : Env World := tableEnv cfgTable ["b"]

/-- World without configuration file. -/
def worldNoFile : World := { files := [], uuids := ["1", "2"] }

/-- World whose configuration file holds the three tasks of `cfg3`. -/
def world3 : World :=
  { files := [("/cfg/sync_drive_config.json", "CFG3")], uuids := ["1", "2"] }

/-- World whose configuration file does not parse. -/
def worldCorrupt : World :=
  { files := [("/cfg/sync_drive_config.json", "\x7b")], uuids := ["1", "2"] }

/-- World whose configuration file is empty (zero bytes). -/
def worldZeroBytes : World :=
  { files := [("/cfg/sync_drive_config.json", "")], uuids := ["1", "2"] }

/-- The manager `mgr0` after loading `cfg3`. -/
def mgr3 : SyncTaskManager := { mgr0 with syncDriveConfig := some cfg3 }

/-- The three tasks of `cfg3`. -/
def tasks3 : List SyncTask := [mkTask "a" "" "", mkTask "b" "id-b" "", mkTask "c" "" ""]

/-! ## The configuration document

The codec of the configuration file, for the environments whose codec is the
JSON of the configuration document. -/

/-- JSON values that occur in the configuration document: strings, `null`,
arrays and objects. -/
inductive JVal where
  | str (s : String)
  | null
  | arr (xs : List JVal)
  | obj (kvs : List (String × JVal))

/-- Tokens of the configuration document. -/
inductive Tok where
  | lbrace
  | rbrace
  | lbrack
  | rbrack
  | colon
  | comma
  | str (s : String)
  | null

/-- A JSON string literal: the text between double quotes, with the double
quote and the backslash escaped by a backslash. -/
def jsonQuote (s : String) : String :=
  "\x22" ++
    String.mk (s.data.flatMap (fun c =>
      if c = Char.ofNat 34 ∨ c = Char.ofNat 92 then [Char.ofNat 92, c] else [c])) ++
    "\x22"

/-- Line break and indentation of one space per level, when indenting. -/
def jsonBreak (useIndent : Bool) (depth : Nat) : String :=
  if useIndent then "\n" ++ String.mk (List.replicate depth ' ') else ""

/-- One member of an object: the quoted key, a colon and the value text. -/
def jsonMember (useIndent : Bool) (key value : String) : String :=
  jsonQuote key ++ (if useIndent then ": " else ":") ++ value

/-- JSON text of one entry of the task list, at the given depth: `null` for a
nil pointer, else the object of the seven persisted fields. -/
def taskToJson (useIndent : Bool) (depth : Nat) : Option SyncTask → String
  | none => "null"
  | some t =>
    "\x7b" ++ jsonBreak useIndent (depth + 1) ++
    jsonMember useIndent "name" (jsonQuote t.Name) ++ "," ++ jsonBreak useIndent (depth + 1) ++
    jsonMember useIndent "id" (jsonQuote t.Id) ++ "," ++ jsonBreak useIndent (depth + 1) ++
    jsonMember useIndent "driveId" (jsonQuote t.DriveId) ++ "," ++
      jsonBreak useIndent (depth + 1) ++
    jsonMember useIndent "localFolderPath" (jsonQuote t.LocalFolderPath) ++ "," ++
      jsonBreak useIndent (depth + 1) ++
    jsonMember useIndent "panFolderPath" (jsonQuote t.PanFolderPath) ++ "," ++
      jsonBreak useIndent (depth + 1) ++
    jsonMember useIndent "mode" (jsonQuote t.Mode) ++ "," ++ jsonBreak useIndent (depth + 1) ++
    jsonMember useIndent "lastSyncTime" (jsonQuote t.LastSyncTime) ++
    jsonBreak useIndent depth ++ "\x7d"

/-- JSON text of the task list at the given depth: `null` for a nil slice,
`[]` for an empty one. -/
def taskListToJson (useIndent : Bool) (depth : Nat) : Option (List (Option SyncTask)) → String
  | none => "null"
  | some [] => "[]"
  | some (t :: ts) =>
    "[" ++ jsonBreak useIndent (depth + 1) ++
    String.intercalate ("," ++ jsonBreak useIndent (depth + 1))
      ((t :: ts).map (taskToJson useIndent (depth + 1))) ++
    jsonBreak useIndent depth ++ "]"

/-- Modelled from the spec: `utils.ObjectToJsonStr` (declared outside the
embedded sources) on a `SyncDriveConfig`, producing the configuration document
of section 6: an object with `configVer` and `syncTaskList`, each task an
object with `name`, `id`, `driveId`, `localFolderPath`, `panFolderPath`, `mode`
and `lastSyncTime`; the two runtime fields are not written.  With `useIndent`
the text is laid out as the sample in `parseConfigFile`, one space per level. -/
def utils.ObjectToJsonStr (c : SyncDriveConfig) (useIndent : Bool) : String :=
  "\x7b" ++ jsonBreak useIndent 1 ++
  jsonMember useIndent "configVer" (jsonQuote c.ConfigVer) ++ "," ++ jsonBreak useIndent 1 ++
  jsonMember useIndent "syncTaskList" (taskListToJson useIndent 1 c.SyncTaskList) ++
  jsonBreak useIndent 0 ++ "\x7d"

/-- State of the scanner: between tokens, inside a string, after a backslash
inside a string, or inside the word `null` with the given letters to come. -/
inductive LexState where
  | out
  | inStr (acc : List Char)
  | esc (acc : List Char)
  | word (rest : List Char)

/-- Scanner of the configuration document: white space separates tokens; any
other character outside a string is a syntax error (`none`). -/
def jsonLex : List Char → LexState → List Tok → Option (List Tok)
  | [], LexState.out, toks => some toks
  | [], _, _ => none
  | c :: cs, LexState.out, toks =>
    if c = ' ' ∨ c = Char.ofNat 10 ∨ c = Char.ofNat 9 ∨ c = Char.ofNat 13 then
      jsonLex cs LexState.out toks
    else if c = Char.ofNat 123 then jsonLex cs LexState.out (toks ++ [Tok.lbrace])
    else if c = Char.ofNat 125 then jsonLex cs LexState.out (toks ++ [Tok.rbrace])
    else if c = '[' then jsonLex cs LexState.out (toks ++ [Tok.lbrack])
    else if c = ']' then jsonLex cs LexState.out (toks ++ [Tok.rbrack])
    else if c = ':' then jsonLex cs LexState.out (toks ++ [Tok.colon])
    else if c = ',' then jsonLex cs LexState.out (toks ++ [Tok.comma])
    else if c = Char.ofNat 34 then jsonLex cs (LexState.inStr []) toks
    else if c = 'n' then jsonLex cs (LexState.word ['u', 'l', 'l']) toks
    else none
  | c :: cs, LexState.inStr acc, toks =>
    if c = Char.ofNat 34 then jsonLex cs LexState.out (toks ++ [Tok.str (String.mk acc)])
    else if c = Char.ofNat 92 then jsonLex cs (LexState.esc acc) toks
    else jsonLex cs (LexState.inStr (acc ++ [c])) toks
  | c :: cs, LexState.esc acc, toks =>
    if c = Char.ofNat 34 ∨ c = Char.ofNat 92 then jsonLex cs (LexState.inStr (acc ++ [c])) toks
    else none
  | _ :: _, LexState.word [], _ => none
  | c :: cs, LexState.word (e :: es), toks =>
    if c = e then
      match es with
      | [] => jsonLex cs LexState.out (toks ++ [Tok.null])
      | _ :: _ => jsonLex cs (LexState.word es) toks
    else none

/-- An enclosing array or object under construction. -/
inductive Frame where
  | arr (acc : List JVal)
  | obj (acc : List (String × JVal)) (key : String)

/-- State of the parser: a value is expected; an array or an object has just
been opened; a key or a colon is expected inside an object; a value has just
been completed. -/
inductive PState where
  | value (stack : List Frame)
  | arrOpen (stack : List Frame)
  | objOpen (stack : List Frame)
  | key (acc : List (String × JVal)) (stack : List Frame)
  | colon (acc : List (String × JVal)) (key : String) (stack : List Frame)
  | after (v : JVal) (stack : List Frame)

/-- The parser on a token that starts a value. -/
def startValue (stack : List Frame) : Tok → Option PState
  | Tok.str s => some (PState.after (JVal.str s) stack)
  | Tok.null => some (PState.after JVal.null stack)
  | Tok.lbrack => some (PState.arrOpen stack)
  | Tok.lbrace => some (PState.objOpen stack)
  | _ => none

/-- One step of the parser of the configuration document. -/
def jsonStep : PState → Tok → Option PState
  | PState.value stack, t => startValue stack t
  | PState.arrOpen stack, Tok.rbrack => some (PState.after (JVal.arr []) stack)
  | PState.arrOpen stack, t => startValue (Frame.arr [] :: stack) t
  | PState.objOpen stack, Tok.rbrace => some (PState.after (JVal.obj []) stack)
  | PState.objOpen stack, Tok.str k => some (PState.colon [] k stack)
  | PState.objOpen _, _ => none
  | PState.key acc stack, Tok.str k => some (PState.colon acc k stack)
  | PState.key _ _, _ => none
  | PState.colon acc k stack, Tok.colon => some (PState.value (Frame.obj acc k :: stack))
  | PState.colon _ _ _, _ => none
  | PState.after v (Frame.arr acc :: stack), Tok.comma =>
    some (PState.value (Frame.arr (acc ++ [v]) :: stack))
  | PState.after v (Frame.arr acc :: stack), Tok.rbrack =>
    some (PState.after (JVal.arr (acc ++ [v])) stack)
  | PState.after v (Frame.obj acc k :: stack), Tok.comma =>
    some (PState.key (acc ++ [(k, v)]) stack)
  | PState.after v (Frame.obj acc k :: stack), Tok.rbrace =>
    some (PState.after (JVal.obj (acc ++ [(k, v)])) stack)
  | PState.after _ _, _ => none

/-- Run the parser over the tokens; the text is one complete value. -/
def jsonRun : List Tok → PState → Option JVal
  | [], PState.after v [] => some v
  | [], _ => none
  | t :: ts, st =>
    match jsonStep st t with
    | none => none
    | some st1 => jsonRun ts st1

/-- Parse a text of the configuration document. -/
def jsonParse (text : String) : Option JVal :=
  match jsonLex text.data LexState.out [] with
  | none => none
  | some toks => jsonRun toks (PState.value [])

/-- The first of two errors. -/
def firstError (a b : Option Error) : Option Error :=
  match a with
  | some e => some e
  | none => b

/-- Store one member of a task object into the task: a string goes to the
field of that name, `null` and unknown names change nothing, another value for
a known name is a type error. -/
def setTaskField (t : SyncTask) (key : String) (v : JVal) : SyncTask × Option Error :=
  match v with
  | JVal.null => (t, none)
  | JVal.str s =>
    if key = "name" then ({ t with Name := s }, none)
    else if key = "id" then ({ t with Id := s }, none)
    else if key = "driveId" then ({ t with DriveId := s }, none)
    else if key = "localFolderPath" then ({ t with LocalFolderPath := s }, none)
    else if key = "panFolderPath" then ({ t with PanFolderPath := s }, none)
    else if key = "mode" then ({ t with Mode := s }, none)
    else if key = "lastSyncTime" then ({ t with LastSyncTime := s }, none)
    else (t, none)
  | _ =>
    if key ∈ ["name", "id", "driveId", "localFolderPath", "panFolderPath", "mode",
        "lastSyncTime"] then
      (t, some "json: cannot unmarshal value into Go struct field of type string")
    else (t, none)

/-- The task with all fields empty. -/
def zeroTask : SyncTask :=
  { Name := "", Id := "", DriveId := "", LocalFolderPath := "", PanFolderPath := "",
    Mode := "", LastSyncTime := "", syncDbFolderPath := "", panClient := none }

/-- Store the members of a task object, in order, keeping the first error. -/
def setTaskFields : List (String × JVal) → SyncTask → Option Error → SyncTask × Option Error
  | [], t, err => (t, err)
  | (k, v) :: rest, t, err =>
    setTaskFields rest (setTaskField t k v).1 (firstError err (setTaskField t k v).2)

/-- One entry of the task array: `null` is a nil pointer, an object is a fresh
task with its members stored, another value is a type error. -/
def decodeTask : JVal → Option SyncTask × Option Error
  | JVal.null => (none, none)
  | JVal.obj kvs => (some (setTaskFields kvs zeroTask none).1, (setTaskFields kvs zeroTask none).2)
  | _ => (some zeroTask, some "json: cannot unmarshal value into Go value of type SyncTask")

/-- The entries of the task array, in order, keeping the first error. -/
def decodeTasks : List JVal → List (Option SyncTask) → Option Error →
    List (Option SyncTask) × Option Error
  | [], acc, err => (acc, err)
  | v :: rest, acc, err =>
    decodeTasks rest (acc ++ [(decodeTask v).1]) (firstError err (decodeTask v).2)

/-- Store one member of the document into the configuration. -/
def setConfigField (c : SyncDriveConfig) (key : String) (v : JVal) :
    SyncDriveConfig × Option Error :=
  if key = "configVer" then
    match v with
    | JVal.str s => ({ c with ConfigVer := s }, none)
    | JVal.null => (c, none)
    | _ => (c, some "json: cannot unmarshal value into Go struct field of type string")
  else if key = "syncTaskList" then
    match v with
    | JVal.null => ({ c with SyncTaskList := none }, none)
    | JVal.arr xs =>
      ({ c with SyncTaskList := some (decodeTasks xs [] none).1 }, (decodeTasks xs [] none).2)
    | _ => (c, some "json: cannot unmarshal value into Go struct field of type []*SyncTask")
  else (c, none)

/-- Store the members of the document, in order, keeping the first error. -/
def setConfigFields : List (String × JVal) → SyncDriveConfig → Option Error →
    SyncDriveConfig × Option Error
  | [], c, err => (c, err)
  | (k, v) :: rest, c, err =>
    setConfigFields rest (setConfigField c k v).1 (firstError err (setConfigField c k v).2)

/-- Modelled from the spec: `json.Unmarshal(data, config)` on the configuration
document of section 6, writing into the configuration it is given.  A text that
is not a document is a syntax error and leaves the configuration as it is; the
members of the object are stored in order, a member of another name is
skipped, `null` for the document or for a string member changes nothing. -/
def json.Unmarshal (data : String) (c : SyncDriveConfig) : SyncDriveConfig × Option Error :=
  match jsonParse data with
  | none => (c, some "invalid character in JSON text")
  | some (JVal.obj kvs) => setConfigFields kvs c none
  | some JVal.null => (c, none)
  | some _ => (c, some "json: cannot unmarshal value into Go value of type SyncDriveConfig")

/-- The environment `env` with the JSON of the configuration document as its
codec; the file system, the random source and the tasks are those of `env`. -/
def Env.withJson {ω : Type} (env : Env ω) : Env ω :=
  { env with ObjectToJsonStr := utils.ObjectToJsonStr, Unmarshal := json.Unmarshal }

/-- Environment of the manager instances in which the folder of the
configuration file does not exist: every write fails and changes nothing. -/
def envNoFolder : Env World :=
  { env0.withJson with
    WriteFile := fun _ _ _ w => (w, some "open: no such file or directory") }

/-- A manager on the folder `/cfg` that still holds the three tasks of `cfg3`
from an earlier load. -/
def mgrStale : SyncTaskManager :=
  { syncDriveConfig := some cfg3, DriveId := "drive2", PanClient := none,
    SyncConfigFolderPath := "/cfg" }

/-! ## Shared lemmas on the stores -/

theorem LocalSyncDbBolt.Add_eq_pan {σ Item : Type} :
    @LocalSyncDbBolt.Add σ Item = @PanSyncDbBolt.Add σ Item := rfl

theorem LocalSyncDbBolt.AddFileList_eq_pan {σ Item : Type} :
    @LocalSyncDbBolt.AddFileList σ Item = @PanSyncDbBolt.AddFileList σ Item := rfl

theorem LocalSyncDbBolt.Get_eq_pan {σ Item : Type} :
    @LocalSyncDbBolt.Get σ Item = @PanSyncDbBolt.Get σ Item := rfl

theorem LocalSyncDbBolt.GetFileList_eq_pan {σ Item : Type} :
    @LocalSyncDbBolt.GetFileList σ Item = @PanSyncDbBolt.GetFileList σ Item := rfl

theorem LocalSyncDbBolt.Delete_eq_pan {σ : Type} :
    @LocalSyncDbBolt.Delete σ = @PanSyncDbBolt.Delete σ := rfl

theorem LocalSyncDbBolt.Update_eq_pan {σ Item : Type} :
    @LocalSyncDbBolt.Update σ Item = @PanSyncDbBolt.Update σ Item := rfl

theorem PanSyncDbBolt.get_after_add {σ Item : Type} (db : BoltDb σ) (ops : ItemOps Item)
    (fmt : String → String) (item : Item) (s : σ)
    (hdb : db.KeepsAdded) (hrt : ops.RoundTrips item) (hne : ops.Path item ≠ "")
    (hfmt : fmt (ops.Path item) = ops.Path item)
    (hadd : (PanSyncDbBolt.Add db ops (some item) s).2.2 = none) :
    (PanSyncDbBolt.Get db ops fmt (ops.Path item)
      (PanSyncDbBolt.Add db ops (some item) s).1).2 = (some item, none) := by
  unfold PanSyncDbBolt.Add at hadd ⊢
  cases hm : ops.Marshal item with
  | error e => simp [hm] at hadd
  | ok d =>
    simp only [hm] at hadd ⊢
    obtain ⟨hd, hu⟩ := hrt d hm
    have h := hdb ⟨ops.Path item, ops.IsFolder item, d⟩ (db.Open s).1 hadd
    simp only at h
    simp only [PanSyncDbBolt.Get, hfmt, hne, if_false, h, hd, hu, ne_eq, not_false_eq_true,
      and_self, if_true]

theorem memDb_keepsAdded (openErr closeErr : Option Error) :
    (memDb openErr closeErr).KeepsAdded := by
  intro b s _
  simp [memDb, List.find?_cons]

theorem recTable_roundTrips : (tableOps recTable).RoundTrips recA := by
  intro data h
  have hd : data = "A" := by
    have h2 : (tableOps recTable).Marshal recA = Except.ok "A" := rfl
    rw [h2] at h
    injection h with h3
    exact h3.symm
  subst hd
  exact ⟨by decide, rfl⟩

/-! ## Theorems on the stores -/

/-- C1: adding a non-nil item whose path is normalized and non-empty and then
getting that path returns the item with a nil error, in the remote and in the
local store, for a substrate that keeps what it added and a codec that round
trips the item. -/
theorem add_then_get_round_trip {σ PanFileItem LocalFileItem : Type} (db : BoltDb σ)
    (pops : ItemOps PanFileItem) (lops : ItemOps LocalFileItem)
    (FormatFilePath : String → String) (hdb : db.KeepsAdded) :
    (∀ (item : PanFileItem) (s : σ), pops.RoundTrips item → pops.Path item ≠ "" →
      FormatFilePath (pops.Path item) = pops.Path item →
      (PanSyncDbBolt.Add db pops (some item) s).2.2 = none →
      (PanSyncDbBolt.Get db pops FormatFilePath (pops.Path item)
        (PanSyncDbBolt.Add db pops (some item) s).1).2 = (some item, none)) ∧
    (∀ (item : LocalFileItem) (s : σ), lops.RoundTrips item → lops.Path item ≠ "" →
      FormatFilePath (lops.Path item) = lops.Path item →
      (LocalSyncDbBolt.Add db lops (some item) s).2.2 = none →
      (LocalSyncDbBolt.Get db lops FormatFilePath (lops.Path item)
        (LocalSyncDbBolt.Add db lops (some item) s).1).2 = (some item, none)) := by
  refine ⟨?_, ?_⟩
  · intro item s hrt hne hfmt hadd
    exact PanSyncDbBolt.get_after_add db pops FormatFilePath item s hdb hrt hne hfmt hadd
  · intro item s hrt hne hfmt hadd
    rw [LocalSyncDbBolt.Add_eq_pan] at hadd ⊢
    rw [LocalSyncDbBolt.Get_eq_pan]
    exact PanSyncDbBolt.get_after_add db lops FormatFilePath item s hdb hrt hne hfmt hadd

/-- Witness of C1 on the in-memory substrate: `recA` is added to the empty
store at `/a/b` and read back, in both stores. -/
theorem add_then_get_round_trip_witness :
    (memDb none none).KeepsAdded ∧ (tableOps recTable).RoundTrips recA ∧
    (PanSyncDbBolt.Add (memDb none none) (tableOps recTable) (some recA) []).2.2 = none ∧
    (PanSyncDbBolt.Get (memDb none none) (tableOps recTable) id "/a/b"
      (PanSyncDbBolt.Add (memDb none none) (tableOps recTable) (some recA) []).1).2
        = (some recA, none) ∧
    (LocalSyncDbBolt.Get (memDb none none) (tableOps recTable) id "/a/b"
      (LocalSyncDbBolt.Add (memDb none none) (tableOps recTable) (some recA) []).1).2
        = (some recA, none) :=
  ⟨memDb_keepsAdded none none, recTable_roundTrips, by decide,
    (add_then_get_round_trip (memDb none none) (tableOps recTable) (tableOps recTable) id
      (memDb_keepsAdded none none)).1 recA [] recTable_roundTrips (by decide) (by decide)
      (by decide),
    (add_then_get_round_trip (memDb none none) (tableOps recTable) (tableOps recTable) id
      (memDb_keepsAdded none none)).2 recA [] recTable_roundTrips (by decide) (by decide)
      (by decide)⟩

theorem marshalItems_error {Item : Type} (ops : ItemOps Item) :
    ∀ (items : List Item) (acc : List BoltItem),
      (∃ it ∈ items, ∃ e, ops.Marshal it = Except.error e) →
      ∃ e, marshalItems ops (items.map some) acc = Outcome.ret (Except.error e) := by
  intro items
  induction items with
  | nil => intro acc h; simp at h
  | cons x rest ih =>
    intro acc h
    cases hm : ops.Marshal x with
    | error e => exact ⟨e, by simp [marshalItems, hm]⟩
    | ok d =>
      obtain ⟨it, hit, e, he⟩ := h
      rcases List.mem_cons.mp hit with hx | hr
      · subst hx; rw [hm] at he; cases he
      · obtain ⟨e2, h2⟩ := ih (acc ++ [⟨ops.Path x, ops.IsFolder x, d⟩]) ⟨it, hr, e, he⟩
        exact ⟨e2, by simp only [List.map_cons, marshalItems, hm]; exact h2⟩

theorem PanSyncDbBolt.addFileList_rejects {σ α Item : Type} (db : BoltDb σ) (ops : ItemOps Item)
    (contents : σ → α)
    (hOpen : ∀ s, contents (db.Open s).1 = contents s)
    (hClose : ∀ s, contents (db.Close s).1 = contents s)
    (items : List Item) (s : σ)
    (h : ∃ it ∈ items, ∃ e, ops.Marshal it = Except.error e) :
    ∃ (e : Error) (r : σ × List DbCall),
      PanSyncDbBolt.AddFileList db.traced ops (some (items.map some)) (s, [])
        = (r, Outcome.ret (false, some e)) ∧
      r.2 = [DbCall.openDb, DbCall.closeDb] ∧ contents r.1 = contents s := by
  obtain ⟨e, he⟩ := marshalItems_error ops items [] h
  refine ⟨e, ((db.Close (db.Open s).1).1, [DbCall.openDb, DbCall.closeDb]), ?_, rfl, ?_⟩
  · simp [PanSyncDbBolt.AddFileList, he, BoltDb.traced]
  · simp [hOpen, hClose]

/-- C2: a non-nil list of items one of which cannot be serialised makes
`AddFileList` return false with an error; the only substrate calls are `Open`
and `Close` (`AddItems` is not called), so whatever `Open` and `Close` leave
unchanged is unchanged.  Remote and local store. -/
theorem addFileList_all_or_nothing {σ α PanFileItem LocalFileItem : Type} (db : BoltDb σ)
    (pops : ItemOps PanFileItem) (lops : ItemOps LocalFileItem) (contents : σ → α)
    (hOpen : ∀ s, contents (db.Open s).1 = contents s)
    (hClose : ∀ s, contents (db.Close s).1 = contents s) :
    (∀ (items : List PanFileItem) (s : σ),
      (∃ it ∈ items, ∃ e, pops.Marshal it = Except.error e) →
      ∃ (e : Error) (r : σ × List DbCall),
        PanSyncDbBolt.AddFileList db.traced pops (some (items.map some)) (s, [])
          = (r, Outcome.ret (false, some e)) ∧
        r.2 = [DbCall.openDb, DbCall.closeDb] ∧ contents r.1 = contents s) ∧
    (∀ (items : List LocalFileItem) (s : σ),
      (∃ it ∈ items, ∃ e, lops.Marshal it = Except.error e) →
      ∃ (e : Error) (r : σ × List DbCall),
        LocalSyncDbBolt.AddFileList db.traced lops (some (items.map some)) (s, [])
          = (r, Outcome.ret (false, some e)) ∧
        r.2 = [DbCall.openDb, DbCall.closeDb] ∧ contents r.1 = contents s) := by
  refine ⟨?_, ?_⟩
  · intro items s h
    exact PanSyncDbBolt.addFileList_rejects db pops contents hOpen hClose items s h
  · intro items s h
    rw [LocalSyncDbBolt.AddFileList_eq_pan]
    exact PanSyncDbBolt.addFileList_rejects db lops contents hOpen hClose items s h

/-- Witness of C2: the batch `recA, recBad` on a store that already holds one
record; `recBad` cannot be serialised. -/
theorem addFileList_all_or_nothing_witness :
    (∃ it ∈ [recA, recBad], ∃ e, (tableOps recTable).Marshal it = Except.error e) ∧
    ∃ (e : Error) (r : List BoltItem × List DbCall),
      PanSyncDbBolt.AddFileList (memDb none none).traced (tableOps recTable)
          (some ([recA, recBad].map some)) ([⟨"/x", true, "X"⟩], [])
        = (r, Outcome.ret (false, some e)) ∧
      r.2 = [DbCall.openDb, DbCall.closeDb] ∧ id r.1 = id [⟨"/x", true, "X"⟩] :=
  ⟨⟨recBad, by decide, "json: unsupported value", rfl⟩,
    (addFileList_all_or_nothing (memDb none none) (tableOps recTable) (tableOps recTable) id
      (fun _ => rfl) (fun _ => rfl)).1 [recA, recBad] [⟨"/x", true, "X"⟩]
      ⟨recBad, by decide, "json: unsupported value", rfl⟩⟩

theorem PanSyncDbBolt.get_empty_payload {σ Item : Type} (db : BoltDb σ) (ops : ItemOps Item)
    (fmt : String → String) (path : String) (s : σ) (hfmt : fmt path ≠ "")
    (hget : (db.Get (fmt path) (db.Open s).1).2 = ("", none)) :
    (PanSyncDbBolt.Get db ops fmt path s).2 = (none, none) := by
  simp [PanSyncDbBolt.Get, hfmt, hget]

/-- C7, the failing case: when the normalized path is not empty and the point
lookup of the substrate yields the empty payload with a nil error, `Get`
returns a nil item together with a nil error, in the remote and in the local
store. -/
theorem get_returns_nil_nil {σ PanFileItem LocalFileItem : Type} (db : BoltDb σ)
    (pops : ItemOps PanFileItem) (lops : ItemOps LocalFileItem)
    (FormatFilePath : String → String) (path : String) (s : σ)
    (hfmt : FormatFilePath path ≠ "")
    (hget : (db.Get (FormatFilePath path) (db.Open s).1).2 = ("", none)) :
    (PanSyncDbBolt.Get db pops FormatFilePath path s).2 = (none, none) ∧
    (LocalSyncDbBolt.Get db lops FormatFilePath path s).2 = (none, none) := by
  refine ⟨PanSyncDbBolt.get_empty_payload db pops FormatFilePath path s hfmt hget, ?_⟩
  rw [LocalSyncDbBolt.Get_eq_pan]
  exact PanSyncDbBolt.get_empty_payload db lops FormatFilePath path s hfmt hget

/-- Witness of C7: `Get` of `/a/b` on the empty in-memory store. -/
theorem get_returns_nil_nil_witness :
    ((memDb none none).Get "/a/b" ((memDb none none).Open []).1).2 = ("", none) ∧
    (PanSyncDbBolt.Get (memDb none none) (tableOps recTable) id "/a/b" []).2 = (none, none) ∧
    (LocalSyncDbBolt.Get (memDb none none) (tableOps recTable) id "/a/b" []).2 = (none, none) :=
  ⟨by decide,
    get_returns_nil_nil (memDb none none) (tableOps recTable) (tableOps recTable) id "/a/b" []
      (by decide) (by decide)⟩

theorem unmarshalItems_ok {Item : Type} (ops : ItemOps Item) :
    ∀ (payloads : List String) (acc items : List Item),
      List.Forall₂ (fun d it => ops.Unmarshal d = Except.ok it)
        (payloads.filter (fun d => d ≠ "")) items →
      unmarshalItems ops payloads acc = Except.ok (acc ++ items) := by
  intro payloads
  induction payloads with
  | nil =>
    intro acc items h
    simp at h
    subst h
    simp [unmarshalItems]
  | cons d rest ih =>
    intro acc items h
    by_cases hd : d = ""
    · subst hd
      simp only [unmarshalItems, if_true]
      exact ih acc items (by simpa using h)
    · have hf : (d :: rest).filter (fun d => d ≠ "") = d :: rest.filter (fun d => d ≠ "") := by
        simp [List.filter_cons, hd]
      rw [hf] at h
      cases h with
      | cons hhead htail =>
        rename_i it its
        simp only [unmarshalItems, hd, if_false, hhead]
        rw [ih (acc ++ [it]) its htail]
        simp

theorem unmarshalItems_error {Item : Type} (ops : ItemOps Item) :
    ∀ (payloads : List String) (acc : List Item),
      (∃ d ∈ payloads, d ≠ "" ∧ ∃ e, ops.Unmarshal d = Except.error e) →
      ∃ e, unmarshalItems ops payloads acc = Except.error e := by
  intro payloads
  induction payloads with
  | nil => intro acc h; simp at h
  | cons d rest ih =>
    intro acc h
    by_cases hd : d = ""
    · subst hd
      obtain ⟨x, hx, hne, e, he⟩ := h
      rcases List.mem_cons.mp hx with h1 | h1
      · exact absurd h1 hne
      · simp only [unmarshalItems, if_true]
        exact ih acc ⟨x, h1, hne, e, he⟩
    · cases hu : ops.Unmarshal d with
      | error e => exact ⟨e, by simp [unmarshalItems, hd, hu]⟩
      | ok it =>
        obtain ⟨x, hx, hne, e, he⟩ := h
        rcases List.mem_cons.mp hx with h1 | h1
        · subst h1; rw [hu] at he; cases he
        · simp only [unmarshalItems, hd, if_false, hu]
          exact ih (acc ++ [it]) ⟨x, h1, hne, e, he⟩

theorem PanSyncDbBolt.getFileList_spec {σ Item : Type} (db : BoltDb σ) (ops : ItemOps Item)
    (fmt : String → String) (path : String) (s : σ) (payloads : List String)
    (hfmt : fmt path ≠ "")
    (hlist : (db.GetFileList (fmt path) (db.Open s).1).2 = (payloads, none)) :
    (payloads = [] → (PanSyncDbBolt.GetFileList db ops fmt path s).2 = (none, none)) ∧
    (∀ items : List Item, payloads ≠ [] →
      List.Forall₂ (fun d it => ops.Unmarshal d = Except.ok it)
        (payloads.filter (fun d => d ≠ "")) items →
      (PanSyncDbBolt.GetFileList db ops fmt path s).2 = (some items, none)) ∧
    (payloads ≠ [] → (∃ d ∈ payloads, d ≠ "" ∧ ∃ e, ops.Unmarshal d = Except.error e) →
      ∃ e, (PanSyncDbBolt.GetFileList db ops fmt path s).2 = (none, some e)) := by
  refine ⟨?_, ?_, ?_⟩
  · intro h
    subst h
    simp [PanSyncDbBolt.GetFileList, hfmt, hlist]
  · intro items hne hall
    have hlen : payloads.length > 0 := List.length_pos.mpr hne
    have h := unmarshalItems_ok ops payloads [] items hall
    simp only [List.nil_append] at h
    simp [PanSyncDbBolt.GetFileList, hfmt, hlist, hlen, h]
  · intro hne hbad
    have hlen : payloads.length > 0 := List.length_pos.mpr hne
    obtain ⟨e, he⟩ := unmarshalItems_error ops payloads [] hbad
    exact ⟨e, by simp [PanSyncDbBolt.GetFileList, hfmt, hlist, hlen, he]⟩

/-- C8 as the code has it: for a folder path whose normalized form is not empty
and a payload list that the child listing of the substrate returns without
error, `GetFileList` returns nil with a nil error when the list is empty;
otherwise it skips the empty payloads and returns, with a nil error, the
deserialisation of the other payloads, one item each, in the order of the list,
when each of them deserialises, and nil with an error when one of them does
not.  Remote and local store. -/
theorem getFileList_returns_listing {σ PanFileItem LocalFileItem : Type} (db : BoltDb σ)
    (pops : ItemOps PanFileItem) (lops : ItemOps LocalFileItem)
    (FormatFilePath : String → String) (path : String) (s : σ) (payloads : List String)
    (hfmt : FormatFilePath path ≠ "")
    (hlist : (db.GetFileList (FormatFilePath path) (db.Open s).1).2 = (payloads, none)) :
    ((payloads = [] →
        (PanSyncDbBolt.GetFileList db pops FormatFilePath path s).2 = (none, none)) ∧
      (∀ items : List PanFileItem, payloads ≠ [] →
        List.Forall₂ (fun d it => pops.Unmarshal d = Except.ok it)
          (payloads.filter (fun d => d ≠ "")) items →
        (PanSyncDbBolt.GetFileList db pops FormatFilePath path s).2 = (some items, none)) ∧
      (payloads ≠ [] →
        (∃ d ∈ payloads, d ≠ "" ∧ ∃ e, pops.Unmarshal d = Except.error e) →
        ∃ e, (PanSyncDbBolt.GetFileList db pops FormatFilePath path s).2 = (none, some e))) ∧
    ((payloads = [] →
        (LocalSyncDbBolt.GetFileList db lops FormatFilePath path s).2 = (none, none)) ∧
      (∀ items : List LocalFileItem, payloads ≠ [] →
        List.Forall₂ (fun d it => lops.Unmarshal d = Except.ok it)
          (payloads.filter (fun d => d ≠ "")) items →
        (LocalSyncDbBolt.GetFileList db lops FormatFilePath path s).2 = (some items, none)) ∧
      (payloads ≠ [] →
        (∃ d ∈ payloads, d ≠ "" ∧ ∃ e, lops.Unmarshal d = Except.error e) →
        ∃ e, (LocalSyncDbBolt.GetFileList db lops FormatFilePath path s).2 = (none, some e))) := by
  refine ⟨PanSyncDbBolt.getFileList_spec db pops FormatFilePath path s payloads hfmt hlist, ?_⟩
  rw [LocalSyncDbBolt.GetFileList_eq_pan]
  exact PanSyncDbBolt.getFileList_spec db lops FormatFilePath path s payloads hfmt hlist

/-- Witness of C8 as the code has it: the folder `/a` of a store holding `/a/b`
with payload `A`, `/a/e` with the empty payload and `/ab/x`; the listing is
`A` and the empty payload, the result is the one item `recA`. -/
theorem getFileList_returns_listing_witness :
    ((memDb none none).GetFileList "/a"
      ((memDb none none).Open
        [⟨"/a/b", false, "A"⟩, ⟨"/a/e", false, ""⟩, ⟨"/ab/x", false, "A"⟩]).1).2
      = (["A", ""], none) ∧
    (PanSyncDbBolt.GetFileList (memDb none none) (tableOps recTable) id "/a"
      [⟨"/a/b", false, "A"⟩, ⟨"/a/e", false, ""⟩, ⟨"/ab/x", false, "A"⟩]).2
      = (some [recA], none) :=
  ⟨by decide,
    (getFileList_returns_listing (memDb none none) (tableOps recTable) (tableOps recTable) id
      "/a" [⟨"/a/b", false, "A"⟩, ⟨"/a/e", false, ""⟩, ⟨"/ab/x", false, "A"⟩] ["A", ""]
      (by decide) (by decide)).1.2.1 [recA] (by decide)
      (List.Forall₂.cons rfl List.Forall₂.nil)⟩

/-- C8, counterexample: the child listing of `/a` returns one record, with the
empty payload, without error, and `GetFileList` returns no item for it; and it
returns one record `Z` that does not deserialise, and `GetFileList` returns an
error. -/
theorem getFileList_returns_listing_counterexample :
    (((memDb none none).GetFileList "/a"
        ((memDb none none).Open [⟨"/a/e", false, ""⟩]).1).2 = ([""], none) ∧
      (PanSyncDbBolt.GetFileList (memDb none none) (tableOps recTable) id "/a"
        [⟨"/a/e", false, ""⟩]).2 = (some [], none) ∧
      (LocalSyncDbBolt.GetFileList (memDb none none) (tableOps recTable) id "/a"
        [⟨"/a/e", false, ""⟩]).2 = (some [], none)) ∧
    (((memDb none none).GetFileList "/a"
        ((memDb none none).Open [⟨"/a/z", false, "Z"⟩]).1).2 = (["Z"], none) ∧
      (PanSyncDbBolt.GetFileList (memDb none none) (tableOps recTable) id "/a"
        [⟨"/a/z", false, "Z"⟩]).2 = (none, some "invalid character") ∧
      (LocalSyncDbBolt.GetFileList (memDb none none) (tableOps recTable) id "/a"
        [⟨"/a/z", false, "Z"⟩]).2 = (none, some "invalid character")) := by
  decide

theorem marshalItems_prefix {Item : Type} (ops : ItemOps Item) :
    ∀ (pre : List Item) (rest : List (Option Item)) (acc : List BoltItem),
      (∀ x ∈ pre, ∃ d, ops.Marshal x = Except.ok d) →
      ∃ boltItems : List BoltItem,
        List.Forall₂
          (fun x b => ∃ d, ops.Marshal x = Except.ok d ∧ b = ⟨ops.Path x, ops.IsFolder x, d⟩)
          pre boltItems ∧
        marshalItems ops (pre.map some ++ rest) acc = marshalItems ops rest (acc ++ boltItems) := by
  intro pre
  induction pre with
  | nil =>
    intro rest acc _
    exact ⟨[], List.Forall₂.nil, by simp⟩
  | cons x xs ih =>
    intro rest acc h
    obtain ⟨d, hd⟩ := h x (List.mem_cons_self _ _)
    obtain ⟨bs, hall, hrun⟩ :=
      ih rest (acc ++ [⟨ops.Path x, ops.IsFolder x, d⟩])
        (fun y hy => h y (List.mem_cons_of_mem _ hy))
    refine ⟨⟨ops.Path x, ops.IsFolder x, d⟩ :: bs, List.Forall₂.cons ⟨d, hd, rfl⟩ hall, ?_⟩
    have hgoal : marshalItems ops (some x :: (xs.map some ++ rest)) acc
        = marshalItems ops (xs.map some ++ rest)
            (acc ++ [⟨ops.Path x, ops.IsFolder x, d⟩]) := by
      simp only [marshalItems, hd]
    rw [List.map_cons, List.cons_append, hgoal, hrun, List.append_assoc, List.singleton_append]

theorem unmarshalItems_prefix_error {Item : Type} (ops : ItemOps Item) :
    ∀ (pre : List String) (data : String) (rest : List String) (acc : List Item) (e : Error),
      (∀ d ∈ pre, d = "" ∨ ∃ x, ops.Unmarshal d = Except.ok x) → data ≠ "" →
      ops.Unmarshal data = Except.error e →
      unmarshalItems ops (pre ++ data :: rest) acc = Except.error e := by
  intro pre
  induction pre with
  | nil =>
    intro data rest acc e _ hne herr
    simp [unmarshalItems, hne, herr]
  | cons d ds ih =>
    intro data rest acc e h hne herr
    have hds : ∀ y ∈ ds, y = "" ∨ ∃ x, ops.Unmarshal y = Except.ok x :=
      fun y hy => h y (List.mem_cons_of_mem _ hy)
    by_cases hd : d = ""
    · subst hd
      simp only [List.cons_append, unmarshalItems, if_true]
      exact ih data rest acc e hds hne herr
    · rcases h d (List.mem_cons_self _ _) with h0 | ⟨x, hx⟩
      · exact absurd h0 hd
      · simp only [List.cons_append, unmarshalItems, hd, if_false, hx]
        exact ih data rest (acc ++ [x]) e hds hne herr

theorem PanSyncDbBolt.results_spec {σ Item : Type} (db : BoltDb σ) (ops : ItemOps Item)
    (fmt : String → String) :
    (∀ (item : Item) (s : σ) (data : String), ops.Marshal item = Except.ok data →
      (PanSyncDbBolt.Add db ops (some item) s).2
        = (db.Add ⟨ops.Path item, ops.IsFolder item, data⟩ (db.Open s).1).2) ∧
    (∀ (item : Item) (s : σ) (e : Error), ops.Marshal item = Except.error e →
      (PanSyncDbBolt.Add db ops (some item) s).2 = (false, some e)) ∧
    (∀ (items : List Item) (s : σ), (∀ x ∈ items, ∃ d, ops.Marshal x = Except.ok d) →
      ∃ boltItems : List BoltItem,
        List.Forall₂
          (fun x b => ∃ d, ops.Marshal x = Except.ok d ∧
            b = ⟨ops.Path x, ops.IsFolder x, d⟩) items boltItems ∧
        (PanSyncDbBolt.AddFileList db ops (some (items.map some)) s).2
          = Outcome.ret (db.AddItems boltItems (db.Open s).1).2) ∧
    (∀ (pre : List Item) (item : Item) (rest : List (Option Item)) (s : σ)
      (e : Error), (∀ x ∈ pre, ∃ d, ops.Marshal x = Except.ok d) →
      ops.Marshal item = Except.error e →
      (PanSyncDbBolt.AddFileList db ops (some (pre.map some ++ some item :: rest)) s).2
        = Outcome.ret (false, some e)) ∧
    (∀ (pre : List Item) (rest : List (Option Item)) (s : σ),
      (∀ x ∈ pre, ∃ d, ops.Marshal x = Except.ok d) →
      (PanSyncDbBolt.AddFileList db ops (some (pre.map some ++ none :: rest)) s).2
        = Outcome.panic) ∧
    (∀ (path : String) (s : σ) (e : Error), fmt path ≠ "" →
      (db.Get (fmt path) (db.Open s).1).2.2 = some e →
      (PanSyncDbBolt.Get db ops fmt path s).2 = (none, some e)) ∧
    (∀ (path : String) (s : σ) (data : String) (item : Item), fmt path ≠ "" →
      (db.Get (fmt path) (db.Open s).1).2 = (data, none) → data ≠ "" →
      ops.Unmarshal data = Except.ok item →
      (PanSyncDbBolt.Get db ops fmt path s).2 = (some item, none)) ∧
    (∀ (path : String) (s : σ) (data : String) (e : Error), fmt path ≠ "" →
      (db.Get (fmt path) (db.Open s).1).2 = (data, none) → data ≠ "" →
      ops.Unmarshal data = Except.error e →
      (PanSyncDbBolt.Get db ops fmt path s).2 = (none, some e)) ∧
    (∀ (path : String) (s : σ) (e : Error), fmt path ≠ "" →
      (db.GetFileList (fmt path) (db.Open s).1).2.2 = some e →
      (PanSyncDbBolt.GetFileList db ops fmt path s).2 = (none, some e)) ∧
    (∀ (path : String) (s : σ), fmt path ≠ "" →
      (db.GetFileList (fmt path) (db.Open s).1).2 = ([], none) →
      (PanSyncDbBolt.GetFileList db ops fmt path s).2 = (none, none)) ∧
    (∀ (path : String) (s : σ) (payloads : List String) (items : List Item),
      fmt path ≠ "" →
      (db.GetFileList (fmt path) (db.Open s).1).2 = (payloads, none) → payloads ≠ [] →
      List.Forall₂ (fun d x => ops.Unmarshal d = Except.ok x)
        (payloads.filter (fun d => d ≠ "")) items →
      (PanSyncDbBolt.GetFileList db ops fmt path s).2 = (some items, none)) ∧
    (∀ (path : String) (s : σ) (pre : List String) (data : String) (rest : List String)
      (e : Error), fmt path ≠ "" →
      (db.GetFileList (fmt path) (db.Open s).1).2 = (pre ++ data :: rest, none) →
      (∀ d ∈ pre, d = "" ∨ ∃ x, ops.Unmarshal d = Except.ok x) → data ≠ "" →
      ops.Unmarshal data = Except.error e →
      (PanSyncDbBolt.GetFileList db ops fmt path s).2 = (none, some e)) ∧
    (∀ (path : String) (s : σ), fmt path ≠ "" →
      (PanSyncDbBolt.Delete db fmt path s).2 = (db.Delete (fmt path) (db.Open s).1).2) ∧
    (∀ (item : Item) (s : σ) (data : String), ops.Marshal item = Except.ok data →
      (PanSyncDbBolt.Update db ops (some item) s).2
        = (db.Update (ops.Path item) (ops.IsFolder item) data (db.Open s).1).2) ∧
    (∀ (item : Item) (s : σ) (e : Error), ops.Marshal item = Except.error e →
      (PanSyncDbBolt.Update db ops (some item) s).2 = (false, some e)) := by
  refine ⟨?_, ?_, ?_, ?_, ?_, ?_, ?_, ?_, ?_, ?_, ?_, ?_, ?_, ?_, ?_⟩
  · intro item s data h
    simp [PanSyncDbBolt.Add, h]
  · intro item s e h
    simp [PanSyncDbBolt.Add, h]
  · intro items s h
    obtain ⟨bs, hall, hrun⟩ := marshalItems_prefix ops items [] [] h
    refine ⟨bs, hall, ?_⟩
    simp only [List.append_nil, List.nil_append, marshalItems] at hrun
    simp [PanSyncDbBolt.AddFileList, hrun]
  · intro pre item rest s e h herr
    obtain ⟨bs, _, hrun⟩ := marshalItems_prefix ops pre (some item :: rest) [] h
    simp only [marshalItems, herr] at hrun
    simp [PanSyncDbBolt.AddFileList, hrun]
  · intro pre rest s h
    obtain ⟨bs, _, hrun⟩ := marshalItems_prefix ops pre (none :: rest) [] h
    simp only [marshalItems] at hrun
    simp [PanSyncDbBolt.AddFileList, hrun]
  · intro path s e hfmt h
    simp [PanSyncDbBolt.Get, hfmt, h]
  · intro path s data item hfmt h hne hu
    simp [PanSyncDbBolt.Get, hfmt, h, hne, hu]
  · intro path s data e hfmt h hne hu
    simp [PanSyncDbBolt.Get, hfmt, h, hne, hu]
  · intro path s e hfmt h
    simp [PanSyncDbBolt.GetFileList, hfmt, h]
  · intro path s hfmt h
    simp [PanSyncDbBolt.GetFileList, hfmt, h]
  · intro path s payloads items hfmt h hne hall
    exact (PanSyncDbBolt.getFileList_spec db ops fmt path s payloads hfmt h).2.1 items hne hall
  · intro path s pre data rest e hfmt h hpre hne herr
    have hrun := unmarshalItems_prefix_error ops pre data rest [] e hpre hne herr
    simp [PanSyncDbBolt.GetFileList, hfmt, h, hrun]
  · intro path s hfmt
    simp [PanSyncDbBolt.Delete, hfmt]
  · intro item s data h
    simp [PanSyncDbBolt.Update, h]
  · intro item s e h
    simp [PanSyncDbBolt.Update, h]

/-- C10 as the code has it: for every data operation of the remote store and of
the local store and every argument that passes the argument check, what `Open`
and `Close` report does not enter the result.  `Add` and `Update` return the
serialisation error, or else what the `Add` or `Update` call of the substrate
returns; `Delete` returns what the `Delete` call returns; `AddFileList`
returns the error of the first element that does not serialise, or else what
the `AddItems` call on the serialised records returns, and panics when the loop
reaches a nil element; `Get` and `GetFileList` return the error of the `Get` or
`GetFileList` call when there is one, and otherwise, for a non-empty payload or
payload list, the deserialised item or items with a nil error, or nil with the
error of the first payload that does not deserialise; `GetFileList` returns nil
with a nil error for an empty list. -/
theorem store_returns_data_call_result {σ PanFileItem LocalFileItem : Type} (db : BoltDb σ)
    (pops : ItemOps PanFileItem) (lops : ItemOps LocalFileItem)
    (FormatFilePath : String → String) :
    ((∀ (item : PanFileItem) (s : σ) (data : String), pops.Marshal item = Except.ok data →
        (PanSyncDbBolt.Add db pops (some item) s).2
          = (db.Add ⟨pops.Path item, pops.IsFolder item, data⟩ (db.Open s).1).2) ∧
      (∀ (item : PanFileItem) (s : σ) (e : Error), pops.Marshal item = Except.error e →
        (PanSyncDbBolt.Add db pops (some item) s).2 = (false, some e)) ∧
      (∀ (items : List PanFileItem) (s : σ), (∀ x ∈ items, ∃ d, pops.Marshal x = Except.ok d) →
        ∃ boltItems : List BoltItem,
          List.Forall₂
            (fun x b => ∃ d, pops.Marshal x = Except.ok d ∧
              b = ⟨pops.Path x, pops.IsFolder x, d⟩) items boltItems ∧
          (PanSyncDbBolt.AddFileList db pops (some (items.map some)) s).2
            = Outcome.ret (db.AddItems boltItems (db.Open s).1).2) ∧
      (∀ (pre : List PanFileItem) (item : PanFileItem) (rest : List (Option PanFileItem)) (s : σ)
        (e : Error), (∀ x ∈ pre, ∃ d, pops.Marshal x = Except.ok d) →
        pops.Marshal item = Except.error e →
        (PanSyncDbBolt.AddFileList db pops (some (pre.map some ++ some item :: rest)) s).2
          = Outcome.ret (false, some e)) ∧
      (∀ (pre : List PanFileItem) (rest : List (Option PanFileItem)) (s : σ),
        (∀ x ∈ pre, ∃ d, pops.Marshal x = Except.ok d) →
        (PanSyncDbBolt.AddFileList db pops (some (pre.map some ++ none :: rest)) s).2
          = Outcome.panic) ∧
      (∀ (path : String) (s : σ) (e : Error), FormatFilePath path ≠ "" →
        (db.Get (FormatFilePath path) (db.Open s).1).2.2 = some e →
        (PanSyncDbBolt.Get db pops FormatFilePath path s).2 = (none, some e)) ∧
      (∀ (path : String) (s : σ) (data : String) (item : PanFileItem), FormatFilePath path ≠ "" →
        (db.Get (FormatFilePath path) (db.Open s).1).2 = (data, none) → data ≠ "" →
        pops.Unmarshal data = Except.ok item →
        (PanSyncDbBolt.Get db pops FormatFilePath path s).2 = (some item, none)) ∧
      (∀ (path : String) (s : σ) (data : String) (e : Error), FormatFilePath path ≠ "" →
        (db.Get (FormatFilePath path) (db.Open s).1).2 = (data, none) → data ≠ "" →
        pops.Unmarshal data = Except.error e →
        (PanSyncDbBolt.Get db pops FormatFilePath path s).2 = (none, some e)) ∧
      (∀ (path : String) (s : σ) (e : Error), FormatFilePath path ≠ "" →
        (db.GetFileList (FormatFilePath path) (db.Open s).1).2.2 = some e →
        (PanSyncDbBolt.GetFileList db pops FormatFilePath path s).2 = (none, some e)) ∧
      (∀ (path : String) (s : σ), FormatFilePath path ≠ "" →
        (db.GetFileList (FormatFilePath path) (db.Open s).1).2 = ([], none) →
        (PanSyncDbBolt.GetFileList db pops FormatFilePath path s).2 = (none, none)) ∧
      (∀ (path : String) (s : σ) (payloads : List String) (items : List PanFileItem),
        FormatFilePath path ≠ "" →
        (db.GetFileList (FormatFilePath path) (db.Open s).1).2 = (payloads, none) → payloads ≠ [] →
        List.Forall₂ (fun d x => pops.Unmarshal d = Except.ok x)
          (payloads.filter (fun d => d ≠ "")) items →
        (PanSyncDbBolt.GetFileList db pops FormatFilePath path s).2 = (some items, none)) ∧
      (∀ (path : String) (s : σ) (pre : List String) (data : String) (rest : List String)
        (e : Error), FormatFilePath path ≠ "" →
        (db.GetFileList (FormatFilePath path) (db.Open s).1).2 = (pre ++ data :: rest, none) →
        (∀ d ∈ pre, d = "" ∨ ∃ x, pops.Unmarshal d = Except.ok x) → data ≠ "" →
        pops.Unmarshal data = Except.error e →
        (PanSyncDbBolt.GetFileList db pops FormatFilePath path s).2 = (none, some e)) ∧
      (∀ (path : String) (s : σ), FormatFilePath path ≠ "" →
        (PanSyncDbBolt.Delete db FormatFilePath path s).2 = (db.Delete (FormatFilePath path) (db.Open s).1).2) ∧
      (∀ (item : PanFileItem) (s : σ) (data : String), pops.Marshal item = Except.ok data →
        (PanSyncDbBolt.Update db pops (some item) s).2
          = (db.Update (pops.Path item) (pops.IsFolder item) data (db.Open s).1).2) ∧
      (∀ (item : PanFileItem) (s : σ) (e : Error), pops.Marshal item = Except.error e →
        (PanSyncDbBolt.Update db pops (some item) s).2 = (false, some e))) ∧
    ((∀ (item : LocalFileItem) (s : σ) (data : String), lops.Marshal item = Except.ok data →
        (LocalSyncDbBolt.Add db lops (some item) s).2
          = (db.Add ⟨lops.Path item, lops.IsFolder item, data⟩ (db.Open s).1).2) ∧
      (∀ (item : LocalFileItem) (s : σ) (e : Error), lops.Marshal item = Except.error e →
        (LocalSyncDbBolt.Add db lops (some item) s).2 = (false, some e)) ∧
      (∀ (items : List LocalFileItem) (s : σ), (∀ x ∈ items, ∃ d, lops.Marshal x = Except.ok d) →
        ∃ boltItems : List BoltItem,
          List.Forall₂
            (fun x b => ∃ d, lops.Marshal x = Except.ok d ∧
              b = ⟨lops.Path x, lops.IsFolder x, d⟩) items boltItems ∧
          (LocalSyncDbBolt.AddFileList db lops (some (items.map some)) s).2
            = Outcome.ret (db.AddItems boltItems (db.Open s).1).2) ∧
      (∀ (pre : List LocalFileItem) (item : LocalFileItem) (rest : List (Option LocalFileItem)) (s : σ)
        (e : Error), (∀ x ∈ pre, ∃ d, lops.Marshal x = Except.ok d) →
        lops.Marshal item = Except.error e →
        (LocalSyncDbBolt.AddFileList db lops (some (pre.map some ++ some item :: rest)) s).2
          = Outcome.ret (false, some e)) ∧
      (∀ (pre : List LocalFileItem) (rest : List (Option LocalFileItem)) (s : σ),
        (∀ x ∈ pre, ∃ d, lops.Marshal x = Except.ok d) →
        (LocalSyncDbBolt.AddFileList db lops (some (pre.map some ++ none :: rest)) s).2
          = Outcome.panic) ∧
      (∀ (path : String) (s : σ) (e : Error), FormatFilePath path ≠ "" →
        (db.Get (FormatFilePath path) (db.Open s).1).2.2 = some e →
        (LocalSyncDbBolt.Get db lops FormatFilePath path s).2 = (none, some e)) ∧
      (∀ (path : String) (s : σ) (data : String) (item : LocalFileItem), FormatFilePath path ≠ "" →
        (db.Get (FormatFilePath path) (db.Open s).1).2 = (data, none) → data ≠ "" →
        lops.Unmarshal data = Except.ok item →
        (LocalSyncDbBolt.Get db lops FormatFilePath path s).2 = (some item, none)) ∧
      (∀ (path : String) (s : σ) (data : String) (e : Error), FormatFilePath path ≠ "" →
        (db.Get (FormatFilePath path) (db.Open s).1).2 = (data, none) → data ≠ "" →
        lops.Unmarshal data = Except.error e →
        (LocalSyncDbBolt.Get db lops FormatFilePath path s).2 = (none, some e)) ∧
      (∀ (path : String) (s : σ) (e : Error), FormatFilePath path ≠ "" →
        (db.GetFileList (FormatFilePath path) (db.Open s).1).2.2 = some e →
        (LocalSyncDbBolt.GetFileList db lops FormatFilePath path s).2 = (none, some e)) ∧
      (∀ (path : String) (s : σ), FormatFilePath path ≠ "" →
        (db.GetFileList (FormatFilePath path) (db.Open s).1).2 = ([], none) →
        (LocalSyncDbBolt.GetFileList db lops FormatFilePath path s).2 = (none, none)) ∧
      (∀ (path : String) (s : σ) (payloads : List String) (items : List LocalFileItem),
        FormatFilePath path ≠ "" →
        (db.GetFileList (FormatFilePath path) (db.Open s).1).2 = (payloads, none) → payloads ≠ [] →
        List.Forall₂ (fun d x => lops.Unmarshal d = Except.ok x)
          (payloads.filter (fun d => d ≠ "")) items →
        (LocalSyncDbBolt.GetFileList db lops FormatFilePath path s).2 = (some items, none)) ∧
      (∀ (path : String) (s : σ) (pre : List String) (data : String) (rest : List String)
        (e : Error), FormatFilePath path ≠ "" →
        (db.GetFileList (FormatFilePath path) (db.Open s).1).2 = (pre ++ data :: rest, none) →
        (∀ d ∈ pre, d = "" ∨ ∃ x, lops.Unmarshal d = Except.ok x) → data ≠ "" →
        lops.Unmarshal data = Except.error e →
        (LocalSyncDbBolt.GetFileList db lops FormatFilePath path s).2 = (none, some e)) ∧
      (∀ (path : String) (s : σ), FormatFilePath path ≠ "" →
        (LocalSyncDbBolt.Delete db FormatFilePath path s).2 = (db.Delete (FormatFilePath path) (db.Open s).1).2) ∧
      (∀ (item : LocalFileItem) (s : σ) (data : String), lops.Marshal item = Except.ok data →
        (LocalSyncDbBolt.Update db lops (some item) s).2
          = (db.Update (lops.Path item) (lops.IsFolder item) data (db.Open s).1).2) ∧
      (∀ (item : LocalFileItem) (s : σ) (e : Error), lops.Marshal item = Except.error e →
        (LocalSyncDbBolt.Update db lops (some item) s).2 = (false, some e))) := by
  refine ⟨PanSyncDbBolt.results_spec db pops FormatFilePath, ?_⟩
  rw [LocalSyncDbBolt.Add_eq_pan, LocalSyncDbBolt.AddFileList_eq_pan, LocalSyncDbBolt.Get_eq_pan,
    LocalSyncDbBolt.GetFileList_eq_pan, LocalSyncDbBolt.Delete_eq_pan,
    LocalSyncDbBolt.Update_eq_pan]
  exact PanSyncDbBolt.results_spec db lops FormatFilePath

/-- Witness of C10 as the code has it: on a substrate whose `Open` and `Close`
both report an error, `Update` of an item without record returns the error of
the `Update` call of the substrate, `Add` returns what the `Add` call of the
substrate returns, `AddFileList` returns the serialisation error of `recBad`
and panics on a nil element, and `Get` returns the item stored at `/a/b`. -/
theorem store_returns_data_call_result_witness :
    (PanSyncDbBolt.Update (memDb (some "open failed") (some "close failed"))
      (tableOps recTable) (some recA) []).2 = (false, some "item not found") ∧
    (LocalSyncDbBolt.Add (memDb (some "open failed") (some "close failed"))
      (tableOps recTable) (some recA) []).2 = (true, none) ∧
    (PanSyncDbBolt.AddFileList (memDb (some "open failed") (some "close failed"))
      (tableOps recTable) (some ([recA].map some ++ some recBad :: [none])) []).2
      = Outcome.ret (false, some "json: unsupported value") ∧
    (LocalSyncDbBolt.AddFileList (memDb (some "open failed") (some "close failed"))
      (tableOps recTable) (some ([recA].map some ++ none :: [some recBad])) []).2
      = Outcome.panic ∧
    (PanSyncDbBolt.Get (memDb (some "open failed") (some "close failed"))
      (tableOps recTable) id "/a/b" [⟨"/a/b", false, "A"⟩]).2 = (some recA, none) :=
  ⟨(store_returns_data_call_result (memDb (some "open failed") (some "close failed"))
      (tableOps recTable) (tableOps recTable) id).1.2.2.2.2.2.2.2.2.2.2.2.2.2.1 recA [] "A" rfl,
    (store_returns_data_call_result (memDb (some "open failed") (some "close failed"))
      (tableOps recTable) (tableOps recTable) id).2.1 recA [] "A" rfl,
    (store_returns_data_call_result (memDb (some "open failed") (some "close failed"))
      (tableOps recTable) (tableOps recTable) id).1.2.2.2.1 [recA] recBad [none] []
      "json: unsupported value" (by intro x hx; simp at hx; subst hx; exact ⟨"A", rfl⟩) rfl,
    (store_returns_data_call_result (memDb (some "open failed") (some "close failed"))
      (tableOps recTable) (tableOps recTable) id).2.2.2.2.2.1 [recA] [some recBad] []
      (by intro x hx; simp at hx; subst hx; exact ⟨"A", rfl⟩),
    (store_returns_data_call_result (memDb (some "open failed") (some "close failed"))
      (tableOps recTable) (tableOps recTable) id).1.2.2.2.2.2.2.1 "/a/b"
      [⟨"/a/b", false, "A"⟩] "A" recA (by decide) (by decide) (by decide) rfl⟩

/-- C10, counterexample: on a substrate whose `Close` reports an error,
`Delete` and `Add` pass their argument check and return a nil error, in the
remote and in the local store. -/
theorem store_error_swallowed_counterexample :
    ((memDb none (some "close failed")).Close []).2 = some "close failed" ∧
    (PanSyncDbBolt.Delete (memDb none (some "close failed")) id "/a/b" []).2 = (true, none) ∧
    (LocalSyncDbBolt.Delete (memDb none (some "close failed")) id "/a/b" []).2 = (true, none) ∧
    (PanSyncDbBolt.Add (memDb none (some "close failed")) (tableOps recTable)
      (some recA) []).2 = (true, none) ∧
    (LocalSyncDbBolt.Add (memDb none (some "close failed")) (tableOps recTable)
      (some recA) []).2 = (true, none) := by
  decide

/-! ## Shared lemmas on the manager -/

theorem strlen_zero (s : String) : s.length = 0 ↔ s = "" := by
  constructor
  · intro h
    cases s with
    | mk data =>
      simp only [String.length] at h
      have hd : data = [] := List.length_eq_zero.mp h
      subst hd
      rfl
  · intro h
    subst h
    rfl

theorem SyncTaskManager.parseConfigFile_fields {ω : Type} (env : Env ω) (m : SyncTaskManager)
    (w : ω) :
    (parseConfigFile env m w).2.1.SyncConfigFolderPath = m.SyncConfigFolderPath ∧
    (parseConfigFile env m w).2.1.DriveId = m.DriveId ∧
    (parseConfigFile env m w).2.1.PanClient = m.PanClient := by
  unfold parseConfigFile
  simp only
  split
  · exact ⟨rfl, rfl, rfl⟩
  · split
    · exact ⟨rfl, rfl, rfl⟩
    · split
      · split <;> exact ⟨rfl, rfl, rfl⟩
      · exact ⟨rfl, rfl, rfl⟩

theorem SyncTaskManager.startTasks_spec {ω : Type} (env : Env ω) (m : SyncTaskManager) :
    ∀ (tasks : List SyncTask) (w : ω) (log : List SysCall),
      ∃ (w2 : ω) (started out : List SyncTask),
        startTasks env.traced m (tasks.map some) (w, log)
          = ((w2, log ++ started.map SysCall.taskStart), Outcome.ret (out.map some)) ∧
        List.Forall₂ (Prepared env m) tasks started ∧
        List.Forall₂ (fun c o => ∃ wi : ω, o = (env.TaskStart c wi).2.1) started out := by
  intro tasks
  induction tasks with
  | nil =>
    intro w log
    exact ⟨w, [], [], by simp [startTasks], List.Forall₂.nil, List.Forall₂.nil⟩
  | cons t rest ih =>
    intro w log
    by_cases hid : t.Id = ""
    · have hlen : t.Id.length = 0 := (strlen_zero t.Id).mpr hid
      have hc : ∃ c : SyncTask, c =
          { t with
            Id := (env.UuidStr w).2
            DriveId := m.DriveId
            syncDbFolderPath := m.SyncConfigFolderPath
            panClient := m.PanClient } := ⟨_, rfl⟩
      obtain ⟨c, hc⟩ := hc
      obtain ⟨w2, started, out, hrest, hprep, hout⟩ :=
        ih (env.TaskStart c (env.UuidStr w).1).1 (log ++ [SysCall.taskStart c])
      refine ⟨w2, c :: started, (env.TaskStart c (env.UuidStr w).1).2.1 :: out, ?_,
        List.Forall₂.cons ?_ hprep, List.Forall₂.cons ⟨(env.UuidStr w).1, rfl⟩ hout⟩
      · simp only [List.map_cons, startTasks, hlen, if_true, Env.traced, ← hc]
        simp only [Env.traced] at hrest
        rw [hrest]
        simp
      · subst hc
        exact ⟨rfl, fun h => absurd hid h, fun _ => ⟨w, rfl⟩⟩
    · have hlen : ¬ t.Id.length = 0 := fun h => hid ((strlen_zero t.Id).mp h)
      have hc : ∃ c : SyncTask, c =
          { t with
            DriveId := m.DriveId
            syncDbFolderPath := m.SyncConfigFolderPath
            panClient := m.PanClient } := ⟨_, rfl⟩
      obtain ⟨c, hc⟩ := hc
      obtain ⟨w2, started, out, hrest, hprep, hout⟩ :=
        ih (env.TaskStart c w).1 (log ++ [SysCall.taskStart c])
      refine ⟨w2, c :: started, (env.TaskStart c w).2.1 :: out, ?_,
        List.Forall₂.cons ?_ hprep, List.Forall₂.cons ⟨w, rfl⟩ hout⟩
      · simp only [List.map_cons, startTasks, hlen, if_false, Env.traced, ← hc]
        simp only [Env.traced] at hrest
        rw [hrest]
        simp
      · subst hc
        exact ⟨rfl, fun _ => rfl, fun h => absurd h hid⟩

theorem SyncTaskManager.start_spec {ω : Type} (env : Env ω) (m m1 : SyncTaskManager)
    (w w1 : ω) (log log1 : List SysCall) (cfg : SyncDriveConfig) (tasks : List SyncTask)
    (hload : parseConfigFile env.traced m (w, log) = ((w1, log1), (m1, none)))
    (hcfg : m1.syncDriveConfig = some cfg)
    (hlist : cfg.SyncTaskList = some (tasks.map some)) (hne : tasks ≠ []) :
    ∃ (w2 : ω) (started out : List SyncTask),
      Start env.traced m (w, log)
        = (((env.WriteFile (configFilePath env m)
              (env.ObjectToJsonStr { cfg with SyncTaskList := some (out.map some) } true)
              384 w2).1,
            log1 ++ started.map SysCall.taskStart ++
              [SysCall.writeFile (configFilePath env m)
                (env.ObjectToJsonStr { cfg with SyncTaskList := some (out.map some) } true)
                384]),
          ({ m1 with syncDriveConfig := some { cfg with SyncTaskList := some (out.map some) } },
            Outcome.ret (true, none))) ∧
      List.Forall₂ (Prepared env m) tasks started ∧
      List.Forall₂ (fun c o => ∃ wi : ω, o = (env.TaskStart c wi).2.1) started out := by
  have hf := parseConfigFile_fields env.traced m (w, log)
  rw [hload] at hf
  simp only at hf
  obtain ⟨hfolder, hdrive, hclient⟩ := hf
  obtain ⟨w2, started, out, hst, hprep, hout⟩ := startTasks_spec env m1 tasks w1 log1
  have hlen : ¬ (tasks.map some).length = 0 := by
    simpa using hne
  refine ⟨w2, started, out, ?_, ?_, hout⟩
  · simp only [Start, hload, hcfg, hlist, hlen, hst, if_false, ne_eq, not_true_eq_false,
      configFilePath, hfolder]
    simp [Env.traced]
  · refine List.Forall₂.imp ?_ hprep
    intro t c h
    unfold Prepared at h ⊢
    rw [hfolder, hdrive, hclient] at h
    exact h

theorem SyncTaskManager.parseConfigFile_missing {ω : Type} (env : Env ω) (m : SyncTaskManager)
    (w : ω) (log : List SysCall)
    (hmiss : env.PathExists (configFilePath env m) w = false) :
    parseConfigFile env.traced m (w, log)
      = (((env.WriteFile (configFilePath env m)
            (env.ObjectToJsonStr { ConfigVer := "1.0", SyncTaskList := some [] } true) 384 w).1,
          log ++ [SysCall.writeFile (configFilePath env m)
            (env.ObjectToJsonStr { ConfigVer := "1.0", SyncTaskList := some [] } true) 384]),
        ({ m with syncDriveConfig := some { ConfigVer := "1.0", SyncTaskList := some [] } },
          none)) := by
  simp only [configFilePath] at hmiss
  simp [parseConfigFile, configFilePath, Env.traced, hmiss]

theorem SyncTaskManager.parseConfigFile_exists {ω : Type} (env : Env ω) (m : SyncTaskManager)
    (w : ω) (log : List SysCall)
    (hex : env.PathExists (configFilePath env m) w = true) :
    parseConfigFile env.traced m (w, log) = ((w, log), (parseConfigFile env m w).2) := by
  simp only [configFilePath] at hex
  simp only [parseConfigFile, configFilePath, Env.traced, hex, ne_eq, not_true_eq_false,
    if_false]
  cases env.ReadFile (env.Join m.SyncConfigFolderPath "sync_drive_config.json") w with
  | error e => rfl
  | ok data =>
    simp only
    split
    · cases (env.Unmarshal data { ConfigVer := "1.0", SyncTaskList := some [] }).2 <;> rfl
    · rfl

theorem SyncTaskManager.start_of_empty_list {ω : Type} (env : Env ω) (m m1 : SyncTaskManager)
    (w w1 : ω) (cfg : SyncDriveConfig)
    (hload : parseConfigFile env m w = (w1, (m1, none)))
    (hcfg : m1.syncDriveConfig = some cfg)
    (hlist : cfg.SyncTaskList = none ∨ cfg.SyncTaskList = some []) :
    Start env m w = (w1, (m1, Outcome.ret (false, some ErrSyncTaskListEmpty))) := by
  rcases hlist with h | h
  · simp [Start, hload, hcfg, h]
  · simp [Start, hload, hcfg, h]

theorem forall₂_comp {α β γ : Type} {R : α → β → Prop} {S : β → γ → Prop} {T : α → γ → Prop}
    (h : ∀ a b c, R a b → S b c → T a c) :
    ∀ {l1 : List α} {l2 : List β} {l3 : List γ},
      List.Forall₂ R l1 l2 → List.Forall₂ S l2 l3 → List.Forall₂ T l1 l3 := by
  intro l1 l2 l3 h12
  induction h12 generalizing l3 with
  | nil =>
    intro h23
    cases h23
    exact List.Forall₂.nil
  | cons hab _ ih =>
    intro h23
    cases h23 with
    | cons hbc hrest => exact List.Forall₂.cons (h _ _ _ hab hbc) (ih hrest)

theorem SyncTaskManager.loaded_tasks_from_file {ω : Type} (env : Env ω)
    (m m1 : SyncTaskManager) (w w1 : ω) (log log1 : List SysCall) (cfg : SyncDriveConfig)
    (tasks : List SyncTask)
    (hload : parseConfigFile env.traced m (w, log) = ((w1, log1), (m1, none)))
    (hcfg : m1.syncDriveConfig = some cfg)
    (hlist : cfg.SyncTaskList = some (tasks.map some)) (hne : tasks ≠ []) :
    w1 = w ∧ log1 = log := by
  cases hex : env.PathExists (configFilePath env m) w with
  | false =>
    rw [parseConfigFile_missing env m w log hex] at hload
    simp only [Prod.mk.injEq] at hload
    obtain ⟨_, hm, _⟩ := hload
    rw [← hm] at hcfg
    simp only [Option.some.injEq] at hcfg
    rw [← hcfg] at hlist
    simp only [Option.some.injEq] at hlist
    exact absurd (List.map_eq_nil_iff.mp hlist.symm) hne
  | true =>
    rw [parseConfigFile_exists env m w log hex] at hload
    simp only [Prod.mk.injEq] at hload
    exact ⟨hload.1.1.symm, hload.1.2.symm⟩

theorem forall₂_imp_mem {α β : Type} {R S : α → β → Prop} :
    ∀ {l1 : List α} {l2 : List β}, List.Forall₂ R l1 l2 →
      (∀ a b, a ∈ l1 → R a b → S a b) → List.Forall₂ S l1 l2 := by
  intro l1 l2 h
  induction h with
  | nil => intro _; exact List.Forall₂.nil
  | cons hab _ ih =>
    intro himp
    exact List.Forall₂.cons (himp _ _ (List.mem_cons_self _ _) hab)
      (ih (fun a b ha hr => himp a b (List.mem_cons_of_mem _ ha) hr))

theorem prepared_ids_nonempty {ω : Type} (env : Env ω) (m : SyncTaskManager)
    (hUuid : ∀ w : ω, (env.UuidStr w).2 ≠ "") :
    ∀ {tasks started : List SyncTask}, List.Forall₂ (Prepared env m) tasks started →
      ∀ c ∈ started, c.Id ≠ "" := by
  intro tasks started h
  induction h with
  | nil => intro c hc; simp at hc
  | @cons t c0 _ _ hab _ ih =>
    intro c hc
    rcases List.mem_cons.mp hc with h1 | h1
    · subst h1
      obtain ⟨_, hkeep, hnew⟩ := hab
      by_cases ht : t.Id = ""
      · obtain ⟨wi, hwi⟩ := hnew ht
        rw [hwi]
        exact hUuid wi
      · rw [hkeep ht]
        exact ht
    · exact ih c h1

theorem forall₂_right {α β : Type} {R : α → β → Prop} {P : β → Prop}
    (h : ∀ a b, R a b → P b) :
    ∀ {l1 : List α} {l2 : List β}, List.Forall₂ R l1 l2 → ∀ b ∈ l2, P b := by
  intro l1 l2 hR
  induction hR with
  | nil => intro b hb; simp at hb
  | @cons a0 b0 _ _ hab _ ih =>
    intro b hb
    rcases List.mem_cons.mp hb with h1 | h1
    · subst h1
      exact h a0 _ hab
    · exact ih b h1

theorem env0_uuid_nonempty : ∀ w : World, (env0.UuidStr w).2 ≠ "" := by
  intro w
  cases hu : w.uuids with
  | nil =>
    simp only [env0, tableEnv, hu]
    decide
  | cons u rest =>
    simp only [env0, tableEnv, hu]
    intro h
    have hlen := congrArg String.length h
    rw [String.length_append] at hlen
    have h5 : "uuid-".length = 5 := by decide
    have h0 : "".length = 0 := by decide
    omega

theorem env0_keepsWritten : env0.KeepsWritten := by
  intro p d perm w _
  simp [env0, tableEnv, List.find?_cons]

/-! ## Theorems on the manager -/

/-- C3: for a configuration loaded without error whose task list is not empty,
and whatever the `Start` of each task returns, `SyncTaskManager.Start` calls
`SyncTask.Start` once per task, in list order, on the task prepared with its
identifier, then writes the configuration, and returns true with a nil error;
these are all the recorded calls.  The written configuration has one task per
task of the list, each as its `Start` call left it and each with a non-empty
identifier (for a `UuidStr` that returns non-empty strings and a task `Start`
that leaves the identifier alone). -/
theorem start_isolates_task_failures {ω : Type} (env : Env ω) (m m1 : SyncTaskManager)
    (w w1 : ω) (log1 : List SysCall) (cfg : SyncDriveConfig) (tasks : List SyncTask)
    (hUuid : ∀ w : ω, (env.UuidStr w).2 ≠ "")
    (hStart : ∀ (t : SyncTask) (w : ω), (env.TaskStart t w).2.1.Id = t.Id)
    (hload : SyncTaskManager.parseConfigFile env.traced m (w, []) = ((w1, log1), (m1, none)))
    (hcfg : m1.syncDriveConfig = some cfg)
    (hlist : cfg.SyncTaskList = some (tasks.map some)) (hne : tasks ≠ []) :
    ∃ (w2 : ω) (started out : List SyncTask),
      SyncTaskManager.Start env.traced m (w, [])
        = (((env.WriteFile (SyncTaskManager.configFilePath env m)
              (env.ObjectToJsonStr { cfg with SyncTaskList := some (out.map some) } true)
              384 w2).1,
            started.map SysCall.taskStart ++
              [SysCall.writeFile (SyncTaskManager.configFilePath env m)
                (env.ObjectToJsonStr { cfg with SyncTaskList := some (out.map some) } true)
                384]),
          ({ m1 with syncDriveConfig := some { cfg with SyncTaskList := some (out.map some) } },
            Outcome.ret (true, none))) ∧
      List.Forall₂ (Prepared env m) tasks started ∧
      List.Forall₂ (fun c o => (∃ wi : ω, o = (env.TaskStart c wi).2.1) ∧ o.Id ≠ "")
        started out := by
  obtain ⟨w2, started, out, hrun, hprep, hout⟩ :=
    SyncTaskManager.start_spec env m m1 w w1 [] log1 cfg tasks hload hcfg hlist hne
  obtain ⟨_, hlog⟩ :=
    SyncTaskManager.loaded_tasks_from_file env m m1 w w1 [] log1 cfg tasks hload hcfg hlist hne
  subst hlog
  refine ⟨w2, started, out, by simpa using hrun, hprep, ?_⟩
  have hids := prepared_ids_nonempty env m hUuid hprep
  refine forall₂_imp_mem hout ?_
  intro c o hc h
  obtain ⟨wi, hwi⟩ := h
  refine ⟨⟨wi, hwi⟩, ?_⟩
  rw [hwi, hStart]
  exact hids c hc

/-- Witness of C3: three tasks, the `Start` of the second one fails; the first
and the third are started all the same, the result is true with a nil error and
the written configuration `SAVED3` holds the three tasks with identifiers. -/
theorem start_isolates_task_failures_witness :
    (env0.TaskStart
      { mkTask "b" "id-b" "drive1" with syncDbFolderPath := "/cfg", panClient := some 1 }
      { files := [("/cfg/sync_drive_config.json", "CFG3")], uuids := ["2"] }).2.2
      = some "start failed" ∧
    SyncTaskManager.Start env0.traced mgr0 (world3, [])
      = (({ files := [("/cfg/sync_drive_config.json", "SAVED3")], uuids := [] },
          [SysCall.taskStart
              { mkTask "a" "uuid-1" "drive1" with syncDbFolderPath := "/cfg", panClient := some 1 },
            SysCall.taskStart
              { mkTask "b" "id-b" "drive1" with syncDbFolderPath := "/cfg", panClient := some 1 },
            SysCall.taskStart
              { mkTask "c" "uuid-2" "drive1" with syncDbFolderPath := "/cfg", panClient := some 1 },
            SysCall.writeFile "/cfg/sync_drive_config.json" "SAVED3" 384]),
        ({ mgr0 with
            syncDriveConfig := some
              { ConfigVer := "1.0",
                SyncTaskList := some
                  [some { mkTask "a" "uuid-1" "drive1" with
                          syncDbFolderPath := "/cfg", panClient := some 1 },
                    some { mkTask "b" "id-b" "drive1" with
                          syncDbFolderPath := "/cfg", panClient := some 1 },
                    some { mkTask "c" "uuid-2" "drive1" with
                          syncDbFolderPath := "/cfg", panClient := some 1 }] } },
          Outcome.ret (true, none))) ∧
    ∃ (w2 : World) (started out : List SyncTask),
      SyncTaskManager.Start env0.traced mgr0 (world3, [])
        = (((env0.WriteFile (SyncTaskManager.configFilePath env0 mgr0)
              (env0.ObjectToJsonStr { cfg3 with SyncTaskList := some (out.map some) } true)
              384 w2).1,
            started.map SysCall.taskStart ++
              [SysCall.writeFile (SyncTaskManager.configFilePath env0 mgr0)
                (env0.ObjectToJsonStr { cfg3 with SyncTaskList := some (out.map some) } true)
                384]),
          ({ mgr3 with syncDriveConfig := some { cfg3 with SyncTaskList := some (out.map some) } },
            Outcome.ret (true, none))) ∧
      List.Forall₂ (Prepared env0 mgr0) tasks3 started ∧
      List.Forall₂ (fun c o => (∃ wi : World, o = (env0.TaskStart c wi).2.1) ∧ o.Id ≠ "")
        started out :=
  ⟨by decide, by decide,
    start_isolates_task_failures env0 mgr0 mgr3 world3 world3 [] cfg3 tasks3
      env0_uuid_nonempty (fun _ _ => rfl) (by decide) rfl rfl (by decide)⟩

theorem SyncTaskManager.start_ids {ω : Type} (env : Env ω) (m : SyncTaskManager)
    (hStart : ∀ (t : SyncTask) (w : ω), (env.TaskStart t w).2.1.Id = t.Id)
    {tasks started out : List SyncTask}
    (hprep : List.Forall₂ (Prepared env m) tasks started)
    (hout : List.Forall₂ (fun c o => ∃ wi : ω, o = (env.TaskStart c wi).2.1) started out) :
    List.Forall₂
      (fun t o => (∃ (c : SyncTask) (wi : ω), Prepared env m t c ∧ o = (env.TaskStart c wi).2.1) ∧
        (t.Id ≠ "" → o.Id = t.Id) ∧ (t.Id = "" → ∃ wi : ω, o.Id = (env.UuidStr wi).2))
      tasks out := by
  refine @forall₂_comp _ _ _ (Prepared env m)
    (fun c o => ∃ wi : ω, o = (env.TaskStart c wi).2.1) _ ?_ _ _ _ hprep hout
  intro t c o hp ho
  obtain ⟨wi, hwi⟩ := ho
  refine ⟨⟨c, wi, hp, hwi⟩, ?_, ?_⟩
  · intro ht
    rw [hwi, hStart]
    exact hp.2.1 ht
  · intro ht
    obtain ⟨wj, hwj⟩ := hp.2.2 ht
    exact ⟨wj, by rw [hwi, hStart]; exact hwj⟩

/-- C9: for a configuration loaded without error whose task list is not empty,
`SyncTaskManager.Start` leaves the list with the same length and order, each
task being the one its `Start` call left; a task whose identifier was not empty
has the same identifier afterwards, in memory and in the configuration that is
written (the text of the in-memory configuration), and a task whose identifier
was empty has one that `UuidStr` returned.  A second `Start` that loads the
tasks back with the saved identifiers ends with the same identifiers.  This is
for a task `Start` that leaves the identifier alone and, for the second
`Start`, a `UuidStr` that returns non-empty strings. -/
theorem start_keeps_identifiers {ω : Type} (env : Env ω) (m m1 : SyncTaskManager)
    (w w1 : ω) (log1 : List SysCall) (cfg : SyncDriveConfig) (tasks : List SyncTask)
    (hStart : ∀ (t : SyncTask) (w : ω), (env.TaskStart t w).2.1.Id = t.Id)
    (hload : SyncTaskManager.parseConfigFile env.traced m (w, []) = ((w1, log1), (m1, none)))
    (hcfg : m1.syncDriveConfig = some cfg)
    (hlist : cfg.SyncTaskList = some (tasks.map some)) (hne : tasks ≠ []) :
    ∃ (w3 : ω) (log3 : List SysCall) (m2 : SyncTaskManager) (out : List SyncTask),
      SyncTaskManager.Start env.traced m (w, [])
        = ((w3, log3 ++ [SysCall.writeFile (SyncTaskManager.configFilePath env m)
              (env.ObjectToJsonStr { cfg with SyncTaskList := some (out.map some) } true) 384]),
          (m2, Outcome.ret (true, none))) ∧
      m2 = { m1 with syncDriveConfig := some { cfg with SyncTaskList := some (out.map some) } } ∧
      List.Forall₂
        (fun t o =>
          (∃ (c : SyncTask) (wi : ω), Prepared env m t c ∧ o = (env.TaskStart c wi).2.1) ∧
          (t.Id ≠ "" → o.Id = t.Id) ∧ (t.Id = "" → ∃ wi : ω, o.Id = (env.UuidStr wi).2))
        tasks out ∧
      ((∀ w : ω, (env.UuidStr w).2 ≠ "") →
        ∀ (w4 : ω) (log4 log5 : List SysCall) (m3 : SyncTaskManager) (cfg2 : SyncDriveConfig)
          (tasks2 : List SyncTask),
          SyncTaskManager.parseConfigFile env.traced m2 (w3, log4) = ((w4, log5), (m3, none)) →
          m3.syncDriveConfig = some cfg2 →
          cfg2.SyncTaskList = some (tasks2.map some) →
          List.Forall₂ (fun o t2 => t2.Id = o.Id) out tasks2 →
          ∃ (w6 : ω) (log6 : List SysCall) (out2 : List SyncTask),
            SyncTaskManager.Start env.traced m2 (w3, log4)
              = ((w6, log6),
                ({ m3 with
                    syncDriveConfig := some { cfg2 with SyncTaskList := some (out2.map some) } },
                  Outcome.ret (true, none))) ∧
            List.Forall₂ (fun o o2 => o2.Id = o.Id) out out2) := by
  obtain ⟨w2, started, out, hrun, hprep, hout⟩ :=
    SyncTaskManager.start_spec env m m1 w w1 [] log1 cfg tasks hload hcfg hlist hne
  obtain ⟨_, hlog⟩ :=
    SyncTaskManager.loaded_tasks_from_file env m m1 w w1 [] log1 cfg tasks hload hcfg hlist hne
  subst hlog
  have hids := SyncTaskManager.start_ids env m hStart hprep hout
  refine ⟨_, started.map SysCall.taskStart, _, out, by simpa using hrun, rfl, hids, ?_⟩
  intro hUuid w4 log4 log5 m3 cfg2 tasks2 hload2 hcfg2 hlist2 hsaved
  have hne2 : tasks2 ≠ [] := by
    intro h
    subst h
    cases hsaved
    cases hids
    exact hne rfl
  obtain ⟨w5, started2, out2, hrun2, hprep2, hout2⟩ :=
    SyncTaskManager.start_spec env _ m3 _ w4 log4 log5 cfg2 tasks2 hload2 hcfg2 hlist2 hne2
  refine ⟨_, _, out2, hrun2, ?_⟩
  have hout_ne : ∀ o ∈ out, o.Id ≠ "" := by
    refine forall₂_right ?_ hids
    intro t o h
    obtain ⟨_, hkeep, hnew⟩ := h
    by_cases ht : t.Id = ""
    · obtain ⟨wi, hwi⟩ := hnew ht
      rw [hwi]
      exact hUuid wi
    · rw [hkeep ht]
      exact ht
  have h1 : List.Forall₂ (fun (o : SyncTask) (t2 : SyncTask) => t2.Id = o.Id ∧ t2.Id ≠ "")
      out tasks2 := by
    refine forall₂_imp_mem hsaved ?_
    intro o t2 ho h
    exact ⟨h, by rw [h]; exact hout_ne o ho⟩
  have hids2 := SyncTaskManager.start_ids env _ hStart hprep2 hout2
  refine @forall₂_comp _ _ _ (fun (o : SyncTask) (t2 : SyncTask) => t2.Id = o.Id ∧ t2.Id ≠ "")
    _ _ ?_ _ _ _ h1 hids2
  intro o t2 o2 h12 h23
  rw [h23.2.1 h12.2]
  exact h12.1

/-- Witness of C9: the three tasks of `cfg3`, of which only the second has an
identifier; a second `Start` on the saved file ends with the same
configuration in memory. -/
theorem start_keeps_identifiers_witness :
    (SyncTaskManager.Start env0
        (SyncTaskManager.Start env0 mgr0 world3).2.1
        (SyncTaskManager.Start env0 mgr0 world3).1).2.1.syncDriveConfig
      = (SyncTaskManager.Start env0 mgr0 world3).2.1.syncDriveConfig ∧
    ∃ (w3 : World) (log3 : List SysCall) (m2 : SyncTaskManager) (out : List SyncTask),
      SyncTaskManager.Start env0.traced mgr0 (world3, [])
        = ((w3, log3 ++ [SysCall.writeFile (SyncTaskManager.configFilePath env0 mgr0)
              (env0.ObjectToJsonStr { cfg3 with SyncTaskList := some (out.map some) } true) 384]),
          (m2, Outcome.ret (true, none))) ∧
      m2 = { mgr3 with syncDriveConfig := some { cfg3 with SyncTaskList := some (out.map some) } } ∧
      List.Forall₂
        (fun t o =>
          (∃ (c : SyncTask) (wi : World),
            Prepared env0 mgr0 t c ∧ o = (env0.TaskStart c wi).2.1) ∧
          (t.Id ≠ "" → o.Id = t.Id) ∧ (t.Id = "" → ∃ wi : World, o.Id = (env0.UuidStr wi).2))
        tasks3 out ∧
      ((∀ w : World, (env0.UuidStr w).2 ≠ "") →
        ∀ (w4 : World) (log4 log5 : List SysCall) (m3 : SyncTaskManager)
          (cfg2 : SyncDriveConfig) (tasks2 : List SyncTask),
          SyncTaskManager.parseConfigFile env0.traced m2 (w3, log4) = ((w4, log5), (m3, none)) →
          m3.syncDriveConfig = some cfg2 →
          cfg2.SyncTaskList = some (tasks2.map some) →
          List.Forall₂ (fun o t2 => t2.Id = o.Id) out tasks2 →
          ∃ (w6 : World) (log6 : List SysCall) (out2 : List SyncTask),
            SyncTaskManager.Start env0.traced m2 (w3, log4)
              = ((w6, log6),
                ({ m3 with
                    syncDriveConfig := some { cfg2 with SyncTaskList := some (out2.map some) } },
                  Outcome.ret (true, none))) ∧
            List.Forall₂ (fun o o2 => o2.Id = o.Id) out out2) :=
  ⟨by decide,
    start_keeps_identifiers env0 mgr0 mgr3 world3 world3 [] cfg3 tasks3 (fun _ _ => rfl)
      (by decide) rfl rfl (by decide)⟩

/-- C4, the failing case: when the configuration file exists and cannot be
read, or is read and cannot be parsed, `parseConfigFile` returns the error and
`SyncTaskManager.Start` returns false with a nil error, the world unchanged. -/
theorem start_drops_load_error {ω : Type} (env : Env ω) (m : SyncTaskManager) (w : ω)
    (hex : env.PathExists (SyncTaskManager.configFilePath env m) w = true)
    (hbad : (∃ e, env.ReadFile (SyncTaskManager.configFilePath env m) w = Except.error e) ∨
      (∃ data e, env.ReadFile (SyncTaskManager.configFilePath env m) w = Except.ok data ∧
        data.length > 0 ∧
        (env.Unmarshal data { ConfigVer := "1.0", SyncTaskList := some [] }).2 = some e)) :
    (∃ e, (SyncTaskManager.parseConfigFile env m w).2.2 = some e) ∧
    (SyncTaskManager.Start env m w).2.2 = Outcome.ret (false, none) ∧
    (SyncTaskManager.Start env m w).1 = w := by
  simp only [SyncTaskManager.configFilePath] at hex hbad
  rcases hbad with ⟨e, he⟩ | ⟨data, e, hd, hlen, hu⟩
  · refine ⟨⟨e, ?_⟩, ?_, ?_⟩ <;>
      simp [SyncTaskManager.Start, SyncTaskManager.parseConfigFile,
        SyncTaskManager.configFilePath, hex, he]
  · refine ⟨⟨e, ?_⟩, ?_, ?_⟩ <;>
      simp [SyncTaskManager.Start, SyncTaskManager.parseConfigFile,
        SyncTaskManager.configFilePath, hex, hd, hlen, hu]

/-- Witness of C4: the configuration file holds an opening brace only. -/
theorem start_drops_load_error_witness :
    env0.ReadFile (SyncTaskManager.configFilePath env0 mgr0) worldCorrupt = Except.ok "\x7b" ∧
    (env0.Unmarshal "\x7b" { ConfigVer := "1.0", SyncTaskList := some [] }).2
      = some "invalid character" ∧
    (∃ e, (SyncTaskManager.parseConfigFile env0 mgr0 worldCorrupt).2.2 = some e) ∧
    (SyncTaskManager.Start env0 mgr0 worldCorrupt).2.2 = Outcome.ret (false, none) ∧
    (SyncTaskManager.Start env0 mgr0 worldCorrupt).1 = worldCorrupt :=
  ⟨rfl, by decide,
    start_drops_load_error env0 mgr0 worldCorrupt (by decide)
      (Or.inr ⟨"\x7b", "invalid character", rfl, by decide, by decide⟩)⟩

/-- C5 as the code has it: when the loaded task list is absent or empty,
`SyncTaskManager.Start` returns false with `ErrSyncTaskListEmpty` and calls no
task `Start`.  When the configuration file exists (its list parsed as null or
empty, or the file of zero bytes) there is no write and the world is unchanged;
when the file does not exist there is exactly one write, that of the fresh
empty configuration by the load. -/
theorem start_without_tasks {ω : Type} (env : Env ω) (m : SyncTaskManager) (w : ω) :
    (env.PathExists (SyncTaskManager.configFilePath env m) w = true →
      (SyncTaskManager.parseConfigFile env m w).2.2 = none →
      (∃ cfg, (SyncTaskManager.parseConfigFile env m w).2.1.syncDriveConfig = some cfg ∧
        (cfg.SyncTaskList = none ∨ cfg.SyncTaskList = some [])) →
      SyncTaskManager.Start env.traced m (w, [])
        = ((w, []), ((SyncTaskManager.parseConfigFile env m w).2.1,
            Outcome.ret (false, some ErrSyncTaskListEmpty)))) ∧
    (env.PathExists (SyncTaskManager.configFilePath env m) w = true →
      env.ReadFile (SyncTaskManager.configFilePath env m) w = Except.ok "" →
      SyncTaskManager.Start env.traced m (w, [])
        = ((w, []),
            ({ m with syncDriveConfig := some { ConfigVer := "1.0", SyncTaskList := some [] } },
              Outcome.ret (false, some ErrSyncTaskListEmpty)))) ∧
    (env.PathExists (SyncTaskManager.configFilePath env m) w = false →
      SyncTaskManager.Start env.traced m (w, [])
        = (((env.WriteFile (SyncTaskManager.configFilePath env m)
              (env.ObjectToJsonStr { ConfigVer := "1.0", SyncTaskList := some [] } true)
              384 w).1,
            [SysCall.writeFile (SyncTaskManager.configFilePath env m)
              (env.ObjectToJsonStr { ConfigVer := "1.0", SyncTaskList := some [] } true) 384]),
          ({ m with syncDriveConfig := some { ConfigVer := "1.0", SyncTaskList := some [] } },
            Outcome.ret (false, some ErrSyncTaskListEmpty)))) := by
  refine ⟨?_, ?_, ?_⟩
  · intro hex herr hempty
    obtain ⟨cfg, hcfg, hlist⟩ := hempty
    have hp := SyncTaskManager.parseConfigFile_exists env m w [] hex
    have hp2 : SyncTaskManager.parseConfigFile env.traced m (w, [])
        = ((w, []), ((SyncTaskManager.parseConfigFile env m w).2.1, none)) := by
      rw [hp, ← herr]
    exact SyncTaskManager.start_of_empty_list env.traced m _ (w, []) (w, []) cfg hp2 hcfg hlist
  · intro hex hread
    have hp := SyncTaskManager.parseConfigFile_exists env m w [] hex
    have hq : (SyncTaskManager.parseConfigFile env m w).2
        = ({ m with syncDriveConfig := some { ConfigVer := "1.0", SyncTaskList := some [] } },
            none) := by
      simp only [SyncTaskManager.configFilePath] at hex hread
      simp [SyncTaskManager.parseConfigFile, SyncTaskManager.configFilePath, hex, hread]
    rw [hq] at hp
    exact SyncTaskManager.start_of_empty_list env.traced m _ (w, []) (w, []) _ hp rfl
      (Or.inr rfl)
  · intro hmiss
    have hp := SyncTaskManager.parseConfigFile_missing env m w [] hmiss
    simp only [List.nil_append] at hp
    exact SyncTaskManager.start_of_empty_list env.traced m _ (w, []) _ _ hp rfl (Or.inr rfl)

/-- Witness of C5 as the code has it: the configuration file of zero bytes, and
no configuration file. -/
theorem start_without_tasks_witness :
    SyncTaskManager.Start env0.traced mgr0 (worldZeroBytes, [])
      = ((worldZeroBytes, []),
          ({ mgr0 with syncDriveConfig := some { ConfigVer := "1.0", SyncTaskList := some [] } },
            Outcome.ret (false, some ErrSyncTaskListEmpty))) ∧
    SyncTaskManager.Start env0.traced mgr0 (worldNoFile, [])
      = (((env0.WriteFile (SyncTaskManager.configFilePath env0 mgr0)
            (env0.ObjectToJsonStr { ConfigVer := "1.0", SyncTaskList := some [] } true)
            384 worldNoFile).1,
          [SysCall.writeFile (SyncTaskManager.configFilePath env0 mgr0)
            (env0.ObjectToJsonStr { ConfigVer := "1.0", SyncTaskList := some [] } true) 384]),
        ({ mgr0 with syncDriveConfig := some { ConfigVer := "1.0", SyncTaskList := some [] } },
          Outcome.ret (false, some ErrSyncTaskListEmpty))) :=
  ⟨(start_without_tasks env0 mgr0 worldZeroBytes).2.1 (by decide) rfl,
    (start_without_tasks env0 mgr0 worldNoFile).2.2 (by decide)⟩

/-- C5, counterexample: without configuration file the task list is empty,
`SyncTaskManager.Start` returns false with `ErrSyncTaskListEmpty`, and it has
written the file: the file system after the call is not the one before. -/
theorem start_without_tasks_counterexample :
    env0.PathExists (SyncTaskManager.configFilePath env0 mgr0) worldNoFile = false ∧
    SyncTaskManager.Start env0.traced mgr0 (worldNoFile, [])
      = (({ files := [("/cfg/sync_drive_config.json", "EMPTY")], uuids := ["1", "2"] },
          [SysCall.writeFile "/cfg/sync_drive_config.json" "EMPTY" 384]),
        ({ mgr0 with syncDriveConfig := some emptyCfg },
          Outcome.ret (false, some ErrSyncTaskListEmpty))) ∧
    (SyncTaskManager.Start env0 mgr0 worldNoFile).1 ≠ worldNoFile := by
  decide

/-- C6 as the code has it: when the configuration file does not exist,
`parseConfigFile` returns a nil error, leaves version `1.0` with an empty
non-nil task list in memory and issues exactly one write, of the JSON text of
that configuration, to the configuration file; that text parses back to the
same configuration.  When the write reports no error on a file system that
keeps what is written, the file holds that text and a second
`parseConfigFile`, from any manager on the same folder, writes nothing,
returns a nil error and leaves the same empty task list.  It does so by
reading: on any existing non-empty file the load returns what the text of the
file parses to. -/
theorem parseConfigFile_creates_file {ω : Type} (env : Env ω) (m m2 : SyncTaskManager) (w : ω)
    (hmiss : env.PathExists (SyncTaskManager.configFilePath env m) w = false)
    (hfolder : m2.SyncConfigFolderPath = m.SyncConfigFolderPath) :
    SyncTaskManager.parseConfigFile env.withJson.traced m (w, [])
      = (((env.WriteFile (SyncTaskManager.configFilePath env m)
            (utils.ObjectToJsonStr { ConfigVer := "1.0", SyncTaskList := some [] } true)
            384 w).1,
          [SysCall.writeFile (SyncTaskManager.configFilePath env m)
            (utils.ObjectToJsonStr { ConfigVer := "1.0", SyncTaskList := some [] } true) 384]),
        ({ m with syncDriveConfig := some { ConfigVer := "1.0", SyncTaskList := some [] } },
          none)) ∧
    utils.ObjectToJsonStr { ConfigVer := "1.0", SyncTaskList := some [] } true
      = "\x7b\n \x22configVer\x22: \x221.0\x22,\n \x22syncTaskList\x22: []\n\x7d" ∧
    json.Unmarshal (utils.ObjectToJsonStr { ConfigVer := "1.0", SyncTaskList := some [] } true)
        { ConfigVer := "1.0", SyncTaskList := some [] }
      = ({ ConfigVer := "1.0", SyncTaskList := some [] }, none) ∧
    (env.KeepsWritten →
      (env.WriteFile (SyncTaskManager.configFilePath env m)
        (utils.ObjectToJsonStr { ConfigVer := "1.0", SyncTaskList := some [] } true)
        384 w).2 = none →
      env.ReadFile (SyncTaskManager.configFilePath env m)
          (env.WriteFile (SyncTaskManager.configFilePath env m)
            (utils.ObjectToJsonStr { ConfigVer := "1.0", SyncTaskList := some [] } true)
            384 w).1
        = Except.ok
            (utils.ObjectToJsonStr { ConfigVer := "1.0", SyncTaskList := some [] } true) ∧
      ∀ log : List SysCall,
        SyncTaskManager.parseConfigFile env.withJson.traced m2
            ((env.WriteFile (SyncTaskManager.configFilePath env m)
              (utils.ObjectToJsonStr { ConfigVer := "1.0", SyncTaskList := some [] } true)
              384 w).1, log)
          = (((env.WriteFile (SyncTaskManager.configFilePath env m)
                (utils.ObjectToJsonStr { ConfigVer := "1.0", SyncTaskList := some [] } true)
                384 w).1, log),
            ({ m2 with
                syncDriveConfig := some { ConfigVer := "1.0", SyncTaskList := some [] } },
              none))) ∧
    (∀ (w2 : ω) (log : List SysCall) (data : String),
      env.PathExists (SyncTaskManager.configFilePath env m) w2 = true →
      env.ReadFile (SyncTaskManager.configFilePath env m) w2 = Except.ok data →
      data.length > 0 →
      SyncTaskManager.parseConfigFile env.withJson.traced m2 (w2, log)
        = ((w2, log),
          ({ m2 with
              syncDriveConfig := some
                (json.Unmarshal data { ConfigVer := "1.0", SyncTaskList := some [] }).1 },
            (json.Unmarshal data { ConfigVer := "1.0", SyncTaskList := some [] }).2))) := by
  have hpath : SyncTaskManager.configFilePath env.withJson m2
      = SyncTaskManager.configFilePath env m := by
    simp [SyncTaskManager.configFilePath, Env.withJson, hfolder]
  have hread : ∀ (w2 : ω) (log : List SysCall) (data : String),
      env.PathExists (SyncTaskManager.configFilePath env m) w2 = true →
      env.ReadFile (SyncTaskManager.configFilePath env m) w2 = Except.ok data →
      data.length > 0 →
      SyncTaskManager.parseConfigFile env.withJson.traced m2 (w2, log)
        = ((w2, log),
          ({ m2 with
              syncDriveConfig := some
                (json.Unmarshal data { ConfigVer := "1.0", SyncTaskList := some [] }).1 },
            (json.Unmarshal data { ConfigVer := "1.0", SyncTaskList := some [] }).2)) := by
    intro w2 log data hex hrd hlen
    have hex2 : env.withJson.PathExists (SyncTaskManager.configFilePath env.withJson m2) w2
        = true := by
      rw [hpath]
      exact hex
    rw [SyncTaskManager.parseConfigFile_exists env.withJson m2 w2 log hex2]
    have hrd2 : env.withJson.ReadFile
        (env.withJson.Join m2.SyncConfigFolderPath "sync_drive_config.json") w2
        = Except.ok data := by
      have h0 := hpath
      simp only [SyncTaskManager.configFilePath] at h0
      rw [h0]
      exact hrd
    have hex3 : env.withJson.PathExists
        (env.withJson.Join m2.SyncConfigFolderPath "sync_drive_config.json") w2 = true := hex2
    simp only [SyncTaskManager.parseConfigFile, SyncTaskManager.configFilePath, hex3, hrd2,
      hlen, ne_eq, not_true_eq_false, if_false, if_true]
    cases hu : (env.withJson.Unmarshal data { ConfigVer := "1.0", SyncTaskList := some [] }).2 with
    | none =>
      have hu2 : (json.Unmarshal data { ConfigVer := "1.0", SyncTaskList := some [] }).2
          = none := hu
      simp only [hu2]
      rfl
    | some e =>
      have hu2 : (json.Unmarshal data { ConfigVer := "1.0", SyncTaskList := some [] }).2
          = some e := hu
      simp only [hu2]
      rfl
  have hback : json.Unmarshal
      (utils.ObjectToJsonStr { ConfigVer := "1.0", SyncTaskList := some [] } true)
      { ConfigVer := "1.0", SyncTaskList := some [] }
      = ({ ConfigVer := "1.0", SyncTaskList := some [] }, none) := by decide
  refine ⟨?_, by decide, hback, ?_, hread⟩
  · have hp := SyncTaskManager.parseConfigFile_missing env.withJson m w [] hmiss
    simp only [List.nil_append] at hp
    exact hp
  · intro hfs hwrite
    obtain ⟨hex, hrd⟩ := hfs _ _ _ _ hwrite
    refine ⟨hrd, ?_⟩
    intro log
    have hlen : (utils.ObjectToJsonStr
        { ConfigVer := "1.0", SyncTaskList := some [] } true).length > 0 := by decide
    rw [hread _ log _ hex hrd hlen, hback]

/-- Witness of C6 as the code has it: the load in the world without
configuration file, then a second load from a manager that still holds three
tasks from an earlier load. -/
theorem parseConfigFile_creates_file_witness :
    env0.PathExists (SyncTaskManager.configFilePath env0 mgr0) worldNoFile = false ∧
    SyncTaskManager.parseConfigFile env0.withJson.traced mgr0 (worldNoFile, [])
      = (({ files := [("/cfg/sync_drive_config.json",
              "\x7b\n \x22configVer\x22: \x221.0\x22,\n \x22syncTaskList\x22: []\n\x7d")],
            uuids := ["1", "2"] },
          [SysCall.writeFile "/cfg/sync_drive_config.json"
            "\x7b\n \x22configVer\x22: \x221.0\x22,\n \x22syncTaskList\x22: []\n\x7d" 384]),
        ({ mgr0 with syncDriveConfig := some { ConfigVer := "1.0", SyncTaskList := some [] } },
          none)) ∧
    (env0.ReadFile (SyncTaskManager.configFilePath env0 mgr0)
          (env0.WriteFile (SyncTaskManager.configFilePath env0 mgr0)
            (utils.ObjectToJsonStr { ConfigVer := "1.0", SyncTaskList := some [] } true)
            384 worldNoFile).1
        = Except.ok
            (utils.ObjectToJsonStr { ConfigVer := "1.0", SyncTaskList := some [] } true) ∧
      ∀ log : List SysCall,
        SyncTaskManager.parseConfigFile env0.withJson.traced mgrStale
            ((env0.WriteFile (SyncTaskManager.configFilePath env0 mgr0)
              (utils.ObjectToJsonStr { ConfigVer := "1.0", SyncTaskList := some [] } true)
              384 worldNoFile).1, log)
          = (((env0.WriteFile (SyncTaskManager.configFilePath env0 mgr0)
                (utils.ObjectToJsonStr { ConfigVer := "1.0", SyncTaskList := some [] } true)
                384 worldNoFile).1, log),
            ({ mgrStale with
                syncDriveConfig := some { ConfigVer := "1.0", SyncTaskList := some [] } },
              none))) :=
  ⟨by decide, by decide,
    (parseConfigFile_creates_file env0 mgr0 mgrStale worldNoFile (by decide) rfl).2.2.2.1
      env0_keepsWritten (by decide)⟩

/-- C6, counterexample: the folder of the configuration file does not exist, so
the write fails; `parseConfigFile` returns a nil error all the same, and
afterwards there is still no configuration file to read. -/
theorem parseConfigFile_creates_file_counterexample :
    envNoFolder.PathExists (SyncTaskManager.configFilePath envNoFolder mgr0) worldNoFile
      = false ∧
    SyncTaskManager.parseConfigFile envNoFolder.traced mgr0 (worldNoFile, [])
      = ((worldNoFile,
          [SysCall.writeFile "/cfg/sync_drive_config.json"
            "\x7b\n \x22configVer\x22: \x221.0\x22,\n \x22syncTaskList\x22: []\n\x7d" 384]),
        ({ mgr0 with syncDriveConfig := some { ConfigVer := "1.0", SyncTaskList := some [] } },
          none)) ∧
    envNoFolder.PathExists (SyncTaskManager.configFilePath envNoFolder mgr0)
      (SyncTaskManager.parseConfigFile envNoFolder mgr0 worldNoFile).1 = false ∧
    envNoFolder.ReadFile (SyncTaskManager.configFilePath envNoFolder mgr0)
      (SyncTaskManager.parseConfigFile envNoFolder mgr0 worldNoFile).1
      = Except.error "no such file or directory" := by
  refine ⟨by decide, by decide, by decide, rfl⟩

end Syncdrive
